import Mathlib

/-!
Formal model of the asd-brightness-daemon (Apple Studio Display brightness
control for GNOME). The development embeds, from the Go sources: the
brightness unit conversions (internal/brightness), the HID display handle
and its closed-state machine (internal/hid/display.go), the display manager
refresh logic (internal/hid/manager.go), the D-Bus service facade with its
token bucket rate limiter (internal/dbus), the udev hot-plug monitor with
remove debouncing and its PRODUCT matching pattern (internal/udev), and the
snapshot diff used for signal emission (cmd/asd-brightness-daemon/main.go).

Modelling conventions: Go float64 arithmetic over the small integer ranges
used here is modelled by exact rational arithmetic (every float64 operation
performed by the Go code on these ranges is exact or correctly rounded far
from any rounding boundary, so the models agree on all values reached by the
theorems below); machine integers are Nat with explicit reductions at the
conversion sites where a value could wrap; Go errors are an inductive type
whose constructors mirror the distinct error identities of the source;
effects on the HID transport and on the display manager are made explicit
as traces returned by each operation. Go maps are modelled as association
lists with first-match lookup; map iteration order is immaterial to every
statement proved below, which only concern lookup results and key sets.
-/

/-- Lookup in an association list modelling a Go map: the first entry with
the given key wins. -/
def mapLookup {α : Type} : List (String × α) → String → Option α
  | [], _ => none
  | (k, v) :: rest, s => if k = s then some v else mapLookup rest s

/-- Insert or overwrite in an association list modelling a Go map: the first
entry with the given key is replaced in place, otherwise the binding is
appended. -/
def mapInsert {α : Type} : List (String × α) → String → α → List (String × α)
  | [], k, v => [(k, v)]
  | (k', v') :: rest, k, v =>
      if k' = k then (k, v) :: rest else (k', v') :: mapInsert rest k v

namespace brightness

/-- MinBrightness is the minimum brightness value in nits supported by the
Apple Studio Display (internal/brightness). -/
def MinBrightness : ℕ := 400

/-- MaxBrightness is the maximum brightness value in nits supported by the
Apple Studio Display. -/
def MaxBrightness : ℕ := 60000

/-- BrightnessRange is the difference between maximum and minimum brightness. -/
def BrightnessRange : ℕ := MaxBrightness - MinBrightness

/-- ClampNits ensures the brightness value is within the valid range
(Go `ClampNits`). -/
def ClampNits (nits : ℕ) : ℕ :=
  if nits < MinBrightness then MinBrightness
  else if nits > MaxBrightness then MaxBrightness
  else nits

/-- NitsToPercent converts a brightness value in nits to a percentage,
mirroring the Go code
`uint8(math.Round(float64(nits-MinBrightness) / float64(BrightnessRange) * 100))`
after clamping. The float64 computation is modelled by exact rational
arithmetic; `math.Round` (round half away from zero) agrees with Mathlib
`round` (round half up) on the nonnegative values produced here. -/
def NitsToPercent (nits : ℕ) : ℕ :=
  (round ((((ClampNits nits : ℕ) : ℚ) - (MinBrightness : ℚ)) / (BrightnessRange : ℚ) * 100)).toNat

/-- PercentToNits converts a percentage to nits, mirroring the Go code
`uint32(float64(percent)*float64(BrightnessRange)/100) + MinBrightness`
preceded by clamping the uint8 argument to 100 and followed by `ClampNits`.
The float64 products and the division are exact on this range, and the Go
float-to-uint32 conversion truncates, modelled by `Int.floor`. -/
def PercentToNits (percent : ℕ) : ℕ :=
  ClampNits
    ((Int.floor ((((if percent > 100 then 100 else percent) : ℕ) : ℚ) * (BrightnessRange : ℚ) / 100)).toNat
      + MinBrightness)

end brightness

namespace hid

/-- GoError models Go error values, with distinct constructors for the
distinct error identities created by the sources via errors.New, a
constructor for errors arising inside the HID transport library, and a wrap
constructor for fmt.Errorf with a percent-w verb. -/
inductive GoError : Type
  | displayClosed
  | emptySerial
  | rateLimitExceeded
  | invalidStep
  | notFound (serial : String)
  | deviceErr (msg : String)
  | wrap (msg : String) (cause : GoError)
  deriving DecidableEq

/-- ErrDisplayClosed is returned when an operation is attempted on a closed
display (internal/hid/display.go). -/
def ErrDisplayClosed : GoError := .displayClosed

/-- ReportID is the HID report ID for brightness control. -/
def ReportID : ℕ := 1

/-- ReportSize is the size of the HID feature report in bytes. -/
def ReportSize : ℕ := 7

/-- DeviceInfo contains information about a HID device
(internal/hid/device.go). -/
structure DeviceInfo where
  Path : String
  VendorID : ℕ
  ProductID : ℕ
  Serial : String
  Manufacturer : String
  Product : String
  Interface : ℤ
  deriving DecidableEq

/-- Device models the HID transport interface of internal/hid/device.go:
each field gives the response of the underlying device to the corresponding
call. GetFeatureReport takes the request buffer and returns the buffer as
filled by the device (the Go call fills the slice in place and returns a
byte count, which the display code ignores); SendFeatureReport takes the
report data and returns the byte count; buffers hold byte values. -/
structure Device where
  GetFeatureReport : List ℕ → Except GoError (List ℕ)
  SendFeatureReport : List ℕ → Except GoError ℕ
  Close : Except GoError Unit
  Info : DeviceInfo

/-- TransportCall records one interaction with the HID transport, with the
buffer passed to it. -/
inductive TransportCall : Type
  | getFeatureReport (data : List ℕ)
  | sendFeatureReport (data : List ℕ)
  | close
  deriving DecidableEq

/-- Display represents an Apple Studio Display handle with its closed flag
(internal/hid/display.go). -/
structure Display where
  device : Device
  closed : Bool

/-- NewDisplay creates a new Display instance wrapping the given HID device. -/
def NewDisplay (device : Device) : Display := ⟨device, false⟩

/-- The request buffer built by Display.GetBrightness: ReportSize zero bytes
with the report ID in byte 0. -/
def getRequest : List ℕ := [ReportID, 0, 0, 0, 0, 0, 0]

/-- Little-endian decoding of bytes 1 to 4 of a feature report buffer,
mirroring `binary.LittleEndian.Uint32(data[1:5])`. -/
def leUint32At1 (data : List ℕ) : ℕ :=
  data.getD 1 0 + 256 * data.getD 2 0 + 65536 * data.getD 3 0 + 16777216 * data.getD 4 0

/-- Little-endian encoding of a uint32 value into four bytes, mirroring
`binary.LittleEndian.PutUint32`. -/
def putUint32 (n : ℕ) : List ℕ :=
  [n % 256, n / 256 % 256, n / 65536 % 256, n / 16777216 % 256]

/-- The feature report buffer built by Display.SetBrightness: report ID,
four little-endian nits bytes, two zero bytes. -/
def brightnessReport (nits : ℕ) : List ℕ :=
  [ReportID] ++ putUint32 nits ++ [0, 0]

/-- GetBrightness reads the current brightness as a percentage, mirroring
Display.GetBrightness: closed check, feature report read, little-endian
decode, NitsToPercent. Returns the result, the display state after the call,
and the trace of transport interactions. -/
def Display.GetBrightness (d : Display) : Except GoError ℕ × Display × List TransportCall :=
  if d.closed then (.error ErrDisplayClosed, d, [])
  else
    match d.device.GetFeatureReport getRequest with
    | .error e =>
        (.error (.wrap "failed to get feature report" e), d, [.getFeatureReport getRequest])
    | .ok data =>
        (.ok (brightness.NitsToPercent (leUint32At1 data)), d, [.getFeatureReport getRequest])

/-- SetBrightness writes the given percentage, mirroring
Display.SetBrightness: closed check, PercentToNits, report build, feature
report send. Returns the result, the display state after the call, and the
trace of transport interactions. -/
def Display.SetBrightness (d : Display) (percent : ℕ) :
    Except GoError Unit × Display × List TransportCall :=
  if d.closed then (.error ErrDisplayClosed, d, [])
  else
    match d.device.SendFeatureReport (brightnessReport (brightness.PercentToNits percent)) with
    | .error e =>
        (.error (.wrap "failed to send feature report" e), d,
          [.sendFeatureReport (brightnessReport (brightness.PercentToNits percent))])
    | .ok _ =>
        (.ok (), d, [.sendFeatureReport (brightnessReport (brightness.PercentToNits percent))])

/-- Close closes the underlying HID device, mirroring Display.Close: a
second and later call returns ok without touching the transport; the first
call marks the display closed and forwards the transport close result. -/
def Display.Close (d : Display) : Except GoError Unit × Display × List TransportCall :=
  if d.closed then (.ok (), d, [])
  else (d.device.Close, { d with closed := true }, [.close])

/-- DisplayOp enumerates the operations a caller can perform on a Display
after it has been handed out. -/
inductive DisplayOp : Type
  | getBrightness
  | setBrightness (percent : ℕ)
  | close
  deriving DecidableEq

deriving instance DecidableEq for Except

/-- OpResult tags the result of one DisplayOp. -/
inductive OpResult : Type
  | got (r : Except GoError ℕ)
  | setRes (r : Except GoError Unit)
  | closeRes (r : Except GoError Unit)
  deriving DecidableEq

/-- Display.step performs one DisplayOp on a display. -/
def Display.step (d : Display) (op : DisplayOp) : OpResult × Display × List TransportCall :=
  match op with
  | .getBrightness =>
      let r := d.GetBrightness
      (.got r.1, r.2.1, r.2.2)
  | .setBrightness p =>
      let r := d.SetBrightness p
      (.setRes r.1, r.2.1, r.2.2)
  | .close =>
      let r := d.Close
      (.closeRes r.1, r.2.1, r.2.2)

/-- runDisplayOps performs a sequence of operations on a display, returning
for each operation its result and transport trace, with the final display
state. -/
def runDisplayOps (d : Display) : List DisplayOp → List (DisplayOp × OpResult × List TransportCall) × Display
  | [] => ([], d)
  | op :: rest =>
      let r := d.step op
      let tailRes := runDisplayOps r.2.1 rest
      ((op, r.1, r.2.2) :: tailRes.1, tailRes.2)

/-- The result every operation yields on a closed display. -/
def closedResult : DisplayOp → OpResult
  | .getBrightness => .got (.error ErrDisplayClosed)
  | .setBrightness _ => .setRes (.error ErrDisplayClosed)
  | .close => .closeRes (.ok ())

/-- Manager handles the lifecycle of multiple displays
(internal/hid/manager.go): the live map from serial to open Display, plus
the injected enumerator and opener capabilities. A refresh performs a single
enumerator call, so the enumerator field holds the outcome of that call, and
the opener field the outcome of the opener call for each serial. -/
structure Manager where
  displays : List (String × Display)
  enumerator : Except GoError (List DeviceInfo)
  opener : String → Except GoError Device

/-- The currentSerials map RefreshDisplays builds from the enumerated
devices: serial to DeviceInfo, later duplicates overwriting earlier ones. -/
def buildCurrentSerials (devs : List DeviceInfo) : List (String × DeviceInfo) :=
  devs.foldl (fun acc info => mapInsert acc info.Serial info) []

/-- RefreshDisplays re-enumerates connected displays and updates the map
(Manager.RefreshDisplays): on enumerator failure it returns the wrapped
error with the map untouched; otherwise it closes and deletes the displays
whose serial is gone (Close is called on each before deletion and its error
only logged; the entry leaves the map either way), then opens displays for
serials not yet present, skipping — and not failing on — serials whose
opener call fails. Returns the manager after the call and the error result. -/
def RefreshDisplays (m : Manager) : Manager × Option GoError :=
  match m.enumerator with
  | .error e => (m, some (.wrap "failed to enumerate displays" e))
  | .ok currentDevices =>
      let currentSerials := buildCurrentSerials currentDevices
      let kept := m.displays.filter (fun p => (mapLookup currentSerials p.1).isSome)
      let opened := currentSerials.filterMap (fun p =>
        if (mapLookup kept p.1).isSome then none
        else
          match m.opener p.1 with
          | .ok device => some (p.1, NewDisplay device)
          | .error _ => none)
      ({ m with displays := kept ++ opened }, none)

end hid

namespace udev

/-- removeEventDebounce is the window during which duplicate REMOVE events
for the same PRODUCT are ignored, in nanoseconds (500 ms, matching the Go
time.Duration representation). -/
def removeEventDebounce : ℤ := 500000000

/-- timeMinute is the stale-entry cleanup horizon time.Minute in
nanoseconds. -/
def timeMinute : ℤ := 60000000000

/-- UAction models the netlink action of a uevent: add, remove, or any
other action string. -/
inductive UAction : Type
  | add
  | remove
  | other
  deriving DecidableEq

/-- UEvent models a netlink uevent as seen by Monitor.handleEvent: the
action and the PRODUCT and DEVTYPE environment values. -/
structure UEvent where
  action : UAction
  product : String
  devtype : String

/-- EventType of a delivered semantic event. -/
inductive EventType : Type
  | eventAdd
  | eventRemove
  deriving DecidableEq

/-- MonitorState holds the lastRemoveTime map from PRODUCT string to the
time (nanoseconds) the last non-debounced REMOVE for it was processed. -/
structure MonitorState where
  lastRemoveTime : List (String × ℤ)

/-- shouldDebounceRemove (Monitor.shouldDebounceRemove): a REMOVE whose
PRODUCT has a recorded time less than the debounce window old is debounced,
leaving the state untouched; otherwise the time is recorded and entries
older than a minute are cleaned up. -/
def shouldDebounceRemove (st : MonitorState) (now : ℤ) (product : String) :
    Bool × MonitorState :=
  let debounced :=
    match mapLookup st.lastRemoveTime product with
    | some lastTime => decide (now - lastTime < removeEventDebounce)
    | none => false
  if debounced then (true, st)
  else
    let updated := mapInsert st.lastRemoveTime product now
    (false, ⟨updated.filter (fun p => !(decide (now - p.2 > timeMinute)))⟩)

/-- handleEvent (Monitor.handleEvent): an add whose DEVTYPE is not
usb_device is filtered; a remove is passed through the debouncer; the
surviving add or remove is delivered to the handler; any other action is
ignored. Returns the state after the event and the delivered event, if
any. -/
def handleEvent (st : MonitorState) (now : ℤ) (uevent : UEvent) :
    MonitorState × Option EventType :=
  if uevent.action = .add ∧ uevent.devtype ≠ "usb_device" then (st, none)
  else
    match uevent.action with
    | .remove =>
        let r := shouldDebounceRemove st now uevent.product
        if r.1 then (r.2, none) else (r.2, some .eventRemove)
    | .add => (st, some .eventAdd)
    | .other => (st, none)

/-- matchCore decides the unanchored core of the matcher regex,
`5[aA][cC]/1114/[^/]+$`, against a character list: literal 5, then a or A,
then c or C, a slash, the product ID 1114, a slash, then one or more
characters to the end of the string, none of which is a slash. -/
def matchCore (l : List Char) : Bool :=
  match l with
  | c5 :: a :: c :: s1 :: d1 :: d2 :: d3 :: d4 :: s2 :: tail =>
      (c5 == '5') && (a == 'a' || a == 'A') && (c == 'c' || c == 'C') &&
      (s1 == '/') && (d1 == '1') && (d2 == '1') && (d3 == '1') && (d4 == '4') &&
      (s2 == '/') && (!tail.isEmpty) && tail.all (fun ch => ch != '/')
  | _ => false

/-- zeroBranch decides the alternative of the optional leading zero in
AppleVendorIDPattern: a leading 0 consumed, then the core pattern. -/
def zeroBranch (l : List Char) : Bool :=
  match l with
  | z :: rest => z == '0' && matchCore rest
  | [] => false

/-- productPatternMatches decides the anchored matcher regex
`^0?5[aA][cC]/1114/[^/]+$` that Monitor.createMatcher builds from
AppleVendorIDPattern (`0?5[aA][cC]`) and StudioDisplayProductID (`1114`):
the optional leading zero is the alternation between not consuming and
consuming a leading 0 (the two branches are exclusive on any one string,
since the core requires a leading 5). -/
def productPatternMatches (s : String) : Bool :=
  matchCore s.toList || zeroBranch s.toList

/-- vendorForms lists the character sequences the vendor part of the
pattern accepts: 5, then a or A, then c or C, with an optional leading 0. -/
def vendorForms : List (List Char) :=
  [['5', 'a', 'c'], ['5', 'a', 'C'], ['5', 'A', 'c'], ['5', 'A', 'C'],
   ['0', '5', 'a', 'c'], ['0', '5', 'a', 'C'], ['0', '5', 'A', 'c'], ['0', '5', 'A', 'C']]

end udev

namespace dbus

/-- ErrEmptySerial is returned when an empty serial number is provided. -/
def ErrEmptySerial : hid.GoError := .emptySerial

/-- ErrRateLimitExceeded is returned when brightness change requests exceed
the rate limit. -/
def ErrRateLimitExceeded : hid.GoError := .rateLimitExceeded

/-- ErrInvalidStep is returned when an invalid brightness step value is
provided; its Go message reads: step must be between 1 and 100. -/
def ErrInvalidStep : hid.GoError := .invalidStep

/-- rateLimitPerSecond is the refill rate of the brightness rate limiter. -/
def rateLimitPerSecond : ℚ := 20

/-- rateLimitBurst is the bucket capacity of the brightness rate limiter. -/
def rateLimitBurst : ℕ := 5

/-- Limiter models the golang.org/x/time/rate token bucket the server uses:
a refill rate in tokens per second, a burst capacity, the token count at
the last update, and the last update time in seconds. The float64 token
arithmetic of the library is modelled by exact rational arithmetic. -/
structure Limiter where
  limit : ℚ
  burst : ℕ
  tokens : ℚ
  last : ℚ

/-- Limiter.advance: the token count at time now, refilled at the limit
rate since the last update (never backwards in time) and capped at the
burst capacity. -/
def Limiter.advance (lim : Limiter) (now : ℚ) : ℚ :=
  min (lim.tokens + max (now - lim.last) 0 * lim.limit) (lim.burst : ℚ)

/-- Limiter.allow models rate.Limiter.Allow: if at least one token is
available after advancing (and the burst admits one token at all), consume
it and commit the update; otherwise report failure and leave the limiter
unchanged, as the library does for a failed reservation. -/
def Limiter.allow (lim : Limiter) (now : ℚ) : Bool × Limiter :=
  if 1 ≤ lim.advance now ∧ 1 ≤ lim.burst then
    (true, { lim with tokens := lim.advance now - 1, last := now })
  else (false, lim)

/-- DisplayInfo as returned over D-Bus: serial and product name. -/
structure DisplayInfo where
  Serial : String
  ProductName : String
  deriving DecidableEq

/-- Signal models a D-Bus signal emission by the server. -/
inductive Signal : Type
  | brightnessChanged (serial : String) (brightness : ℕ)
  deriving DecidableEq

/-- MgrCall records one interaction of the server with the display
manager. -/
inductive MgrCall : Type
  | listDisplays
  | getDisplay (serial : String)
  deriving DecidableEq

/-- Server implements the D-Bus service: the display manager and the rate
limiter (internal/dbus/server.go). -/
structure Server where
  manager : hid.Manager
  limiter : Limiter

/-- NewServer creates a server with a full token bucket, as
rate.NewLimiter(rateLimitPerSecond, rateLimitBurst) does, created at the
given time. -/
def NewServer (manager : hid.Manager) (startTime : ℚ) : Server :=
  ⟨manager, ⟨rateLimitPerSecond, rateLimitBurst, (rateLimitBurst : ℚ), startTime⟩⟩

/-- RpcOutcome bundles the observable outcome of one server method call:
the returned D-Bus error if any, the server state after the call, the
signals emitted, the HID transport interactions, and the display manager
interactions, each in order. -/
structure RpcOutcome where
  err : Option hid.GoError
  server : Server
  signals : List Signal
  trace : List hid.TransportCall
  mgrCalls : List MgrCall

/-- Server.ListDisplays: returns serial and product name of every display
in the manager map; no rate limiting, no error. -/
def Server.ListDisplays (s : Server) : List DisplayInfo × RpcOutcome :=
  (s.manager.displays.map (fun p => ⟨p.2.device.Info.Serial, p.2.device.Info.Product⟩),
   ⟨none, s, [], [], [.listDisplays]⟩)

/-- Server.GetBrightness: empty-serial check, display lookup, then the
display read; no rate limiting. Returns the brightness (zero on error)
with the outcome. -/
def Server.GetBrightness (s : Server) (serial : String) : ℕ × RpcOutcome :=
  if serial = "" then (0, ⟨some ErrEmptySerial, s, [], [], []⟩)
  else
    match mapLookup s.manager.displays serial with
    | none => (0, ⟨some (.notFound serial), s, [], [], [.getDisplay serial]⟩)
    | some d =>
        let r := d.GetBrightness
        match r.1 with
        | .error e => (0, ⟨some e, s, [], r.2.2, [.getDisplay serial]⟩)
        | .ok b => (b, ⟨none, s, [], r.2.2, [.getDisplay serial]⟩)

/-- Server.SetBrightness: rate limiter first, then empty-serial check, then
display lookup, clamping above 100, the display write (the uint32 to uint8
conversion site is modelled by an explicit reduction), and the
BrightnessChanged signal on success. -/
def Server.SetBrightness (s : Server) (now : ℚ) (serial : String) (brightness : ℕ) :
    RpcOutcome :=
  let a := s.limiter.allow now
  let s' : Server := { s with limiter := a.2 }
  if !a.1 then ⟨some ErrRateLimitExceeded, s', [], [], []⟩
  else if serial = "" then ⟨some ErrEmptySerial, s', [], [], []⟩
  else
    match mapLookup s.manager.displays serial with
    | none => ⟨some (.notFound serial), s', [], [], [.getDisplay serial]⟩
    | some d =>
        let b := if brightness > 100 then 100 else brightness
        let r := d.SetBrightness (b % 256)
        match r.1 with
        | .error e => ⟨some e, s', [], r.2.2, [.getDisplay serial]⟩
        | .ok _ => ⟨none, s', [.brightnessChanged serial b], r.2.2, [.getDisplay serial]⟩

/-- Server.IncreaseBrightness: rate limiter first, then empty-serial check,
then the step validation (step equal to zero or above 100 is rejected),
display lookup, current brightness read, the increment clamped at 100, the
display write, and the BrightnessChanged signal on success. -/
def Server.IncreaseBrightness (s : Server) (now : ℚ) (serial : String) (step : ℕ) :
    RpcOutcome :=
  let a := s.limiter.allow now
  let s' : Server := { s with limiter := a.2 }
  if !a.1 then ⟨some ErrRateLimitExceeded, s', [], [], []⟩
  else if serial = "" then ⟨some ErrEmptySerial, s', [], [], []⟩
  else if step = 0 ∨ step > 100 then ⟨some ErrInvalidStep, s', [], [], []⟩
  else
    match mapLookup s.manager.displays serial with
    | none => ⟨some (.notFound serial), s', [], [], [.getDisplay serial]⟩
    | some d =>
        let g := d.GetBrightness
        match g.1 with
        | .error e => ⟨some e, s', [], g.2.2, [.getDisplay serial]⟩
        | .ok current =>
            let newB := if current + step > 100 then 100 else current + step
            let r := d.SetBrightness (newB % 256)
            match r.1 with
            | .error e => ⟨some e, s', [], g.2.2 ++ r.2.2, [.getDisplay serial]⟩
            | .ok _ =>
                ⟨none, s', [.brightnessChanged serial newB], g.2.2 ++ r.2.2,
                  [.getDisplay serial]⟩

/-- Server.DecreaseBrightness: rate limiter first, then empty-serial check,
then the step validation, display lookup, current brightness read, the
saturating decrement (zero when the step is at least the current value),
the display write, and the BrightnessChanged signal on success. -/
def Server.DecreaseBrightness (s : Server) (now : ℚ) (serial : String) (step : ℕ) :
    RpcOutcome :=
  let a := s.limiter.allow now
  let s' : Server := { s with limiter := a.2 }
  if !a.1 then ⟨some ErrRateLimitExceeded, s', [], [], []⟩
  else if serial = "" then ⟨some ErrEmptySerial, s', [], [], []⟩
  else if step = 0 ∨ step > 100 then ⟨some ErrInvalidStep, s', [], [], []⟩
  else
    match mapLookup s.manager.displays serial with
    | none => ⟨some (.notFound serial), s', [], [], [.getDisplay serial]⟩
    | some d =>
        let g := d.GetBrightness
        match g.1 with
        | .error e => ⟨some e, s', [], g.2.2, [.getDisplay serial]⟩
        | .ok current =>
            let newB := if current > step then current - step else 0
            let r := d.SetBrightness (newB % 256)
            match r.1 with
            | .error e => ⟨some e, s', [], g.2.2 ++ r.2.2, [.getDisplay serial]⟩
            | .ok _ =>
                ⟨none, s', [.brightnessChanged serial newB], g.2.2 ++ r.2.2,
                  [.getDisplay serial]⟩

/-- Server.SetAllBrightness: rate limiter first, clamping above 100, then
for every listed display a lookup and a write, errors only logged, the
BrightnessChanged signal for each success, and no error overall. -/
def Server.SetAllBrightness (s : Server) (now : ℚ) (brightness : ℕ) : RpcOutcome :=
  let a := s.limiter.allow now
  let s' : Server := { s with limiter := a.2 }
  if !a.1 then ⟨some ErrRateLimitExceeded, s', [], [], []⟩
  else
    let b := if brightness > 100 then 100 else brightness
    let infos := s.manager.displays.map (fun p => p.2.device.Info)
    let pieces := infos.map (fun info =>
      match mapLookup s.manager.displays info.Serial with
      | none => (([] : List Signal), ([] : List hid.TransportCall))
      | some d =>
          let r := d.SetBrightness (b % 256)
          match r.1 with
          | .error _ => ([], r.2.2)
          | .ok _ => ([Signal.brightnessChanged info.Serial b], r.2.2))
    ⟨none, s', (pieces.map (fun x => x.1)).flatten, (pieces.map (fun x => x.2)).flatten,
      MgrCall.listDisplays :: infos.map (fun info => MgrCall.getDisplay info.Serial)⟩

/-- MutCall enumerates the brightness-mutating methods of the server. -/
inductive MutCall : Type
  | set (serial : String) (brightness : ℕ)
  | inc (serial : String) (step : ℕ)
  | dec (serial : String) (step : ℕ)
  | setAll (brightness : ℕ)

/-- mutStep dispatches one mutating call. -/
def mutStep (s : Server) (now : ℚ) : MutCall → RpcOutcome
  | .set serial b => s.SetBrightness now serial b
  | .inc serial n => s.IncreaseBrightness now serial n
  | .dec serial n => s.DecreaseBrightness now serial n
  | .setAll b => s.SetAllBrightness now b

/-- runMutCalls chains a sequence of mutating calls at a fixed time,
collecting the returned errors. -/
def runMutCalls (s : Server) (now : ℚ) : List MutCall → List (Option hid.GoError) × Server
  | [] => ([], s)
  | m :: rest =>
      let r := mutStep s now m
      let tailRes := runMutCalls r.server now rest
      (r.err :: tailRes.1, tailRes.2)

end dbus

namespace daemon

/-- displayChanges represents changes detected during a display refresh
(cmd/asd-brightness-daemon/main.go). -/
structure displayChanges where
  added : List hid.DeviceInfo
  removed : List String
  deriving DecidableEq

/-- diffDisplays compares old and new snapshot maps: added collects the
entries of new whose serial is not a key of old, removed the keys of old
that are not keys of new. Snapshots are association lists with distinct
keys standing for the Go maps; iteration order is immaterial to the
membership statements proved about the result. -/
def diffDisplays (oldDisplays newDisplays : List (String × hid.DeviceInfo)) :
    displayChanges :=
  { added := (newDisplays.filter (fun p => (mapLookup oldDisplays p.1).isNone)).map Prod.snd,
    removed := (oldDisplays.filter (fun p => (mapLookup newDisplays p.1).isNone)).map Prod.fst }

/-- Modelled from the spec: the diff law speaks of applying the additions
and removals to the old snapshot; the Go code has no such function (it
emits D-Bus signals instead), so this follows the spec words — drop the
removed keys from old, then insert each added DeviceInfo under its
Serial. -/
def applyChanges (oldDisplays : List (String × hid.DeviceInfo)) (ch : displayChanges) :
    List (String × hid.DeviceInfo) :=
  oldDisplays.filter (fun p => !(ch.removed.contains p.1)) ++
    ch.added.map (fun i => (i.Serial, i))

end daemon

/-- Fixture DeviceInfo for serial A. -/
def fxInfo : hid.DeviceInfo :=
  ⟨"/dev/hidraw0", 1452, 4372, "A", "Apple", "Studio Display", 7⟩

/-- Fixture DeviceInfo for serial B. -/
def fxInfoB : hid.DeviceInfo := { fxInfo with Serial := "B", Path := "/dev/hidraw1" }

/-- Fixture DeviceInfo for serial C. -/
def fxInfoC : hid.DeviceInfo := { fxInfo with Serial := "C", Path := "/dev/hidraw2" }

/-- Fixture DeviceInfo for serial A with a different device path, for the
diff counterexample. -/
def fxInfoA2 : hid.DeviceInfo := { fxInfo with Path := "/dev/hidraw9" }

/-- Fixture feature report buffer encoding 30200 nits (50 percent) in
little-endian bytes 1 to 4. -/
def fxBuf50 : List ℕ := [1, 248, 117, 0, 0, 0, 0]

/-- Fixture device: reports 50 percent brightness, accepts writes, closes
cleanly. -/
def fxDevice : hid.Device :=
  ⟨fun _ => .ok fxBuf50, fun data => .ok data.length, .ok (), fxInfo⟩

/-- Fixture display for serial A. -/
def fxDisplay : hid.Display := hid.NewDisplay fxDevice

/-- Fixture device for serial B. -/
def fxDeviceB : hid.Device := { fxDevice with Info := fxInfoB }

/-- Fixture manager: serial A open; enumeration reports A, B and C; the
opener succeeds for B and fails for C. -/
def fxManager : hid.Manager :=
  ⟨[("A", fxDisplay)], .ok [fxInfo, fxInfoB, fxInfoC],
   fun serial => if serial = "B" then .ok fxDeviceB else .error (.deviceErr "open failed")⟩

/-- Fixture manager whose enumerator fails. -/
def fxManagerErr : hid.Manager :=
  ⟨[("A", fxDisplay)], .error (.deviceErr "enumerate failed"),
   fun _ => .error (.deviceErr "open failed")⟩

/-- Fixture server with a full bucket updated at time zero. -/
def fxServer : dbus.Server := ⟨fxManager, ⟨20, 5, 5, 0⟩⟩

/-- Fixture server with an empty bucket updated at time zero. -/
def fxServerEmpty : dbus.Server := ⟨fxManager, ⟨20, 5, 0, 0⟩⟩


/-! Helper lemmas about the association-list model of Go maps. -/

theorem mapLookup_nil {α : Type} (s : String) : mapLookup ([] : List (String × α)) s = none :=
  rfl

theorem mapLookup_cons {α : Type} (k : String) (v : α) (rest : List (String × α))
    (s : String) :
    mapLookup ((k, v) :: rest) s = if k = s then some v else mapLookup rest s :=
  rfl

theorem mapLookup_append_some {α : Type} {l₁ : List (String × α)} {s : String} {v : α}
    (l₂ : List (String × α)) (h : mapLookup l₁ s = some v) :
    mapLookup (l₁ ++ l₂) s = some v := by
  induction l₁ with
  | nil => simp [mapLookup_nil] at h
  | cons p rest ih =>
      obtain ⟨k, w⟩ := p
      rw [List.cons_append, mapLookup_cons]
      rw [mapLookup_cons] at h
      by_cases hk : k = s
      · rwa [if_pos hk] at h ⊢
      · rw [if_neg hk] at h ⊢
        exact ih h

theorem mapLookup_append_none {α : Type} {l₁ : List (String × α)} {s : String}
    (l₂ : List (String × α)) (h : mapLookup l₁ s = none) :
    mapLookup (l₁ ++ l₂) s = mapLookup l₂ s := by
  induction l₁ with
  | nil => simp
  | cons p rest ih =>
      obtain ⟨k, w⟩ := p
      rw [mapLookup_cons] at h
      rw [List.cons_append, mapLookup_cons]
      by_cases hk : k = s
      · rw [if_pos hk] at h
        exact absurd h (by simp)
      · rw [if_neg hk] at h ⊢
        exact ih h

theorem mapLookup_append_isSome {α : Type} (l₁ l₂ : List (String × α)) (s : String) :
    (mapLookup (l₁ ++ l₂) s).isSome ↔
      ((mapLookup l₁ s).isSome ∨ (mapLookup l₂ s).isSome) := by
  cases h : mapLookup l₁ s with
  | some v => simp [mapLookup_append_some l₂ h, h]
  | none => simp [mapLookup_append_none l₂ h, h]

theorem mapLookup_filter_key {α : Type} (l : List (String × α)) (f : String → Bool)
    (s : String) :
    mapLookup (l.filter (fun p => f p.1)) s = if f s then mapLookup l s else none := by
  induction l with
  | nil => by_cases h : f s <;> simp [mapLookup_nil, h]
  | cons p rest ih =>
      obtain ⟨k, v⟩ := p
      by_cases hk : k = s
      · subst hk
        by_cases hf : f k
        · simp [List.filter_cons, hf, mapLookup_cons]
        · simp [List.filter_cons, hf, ih, mapLookup_cons]
      · by_cases hf : f k <;>
          simp [List.filter_cons, hf, mapLookup_cons, hk, ih]

theorem mapLookup_filterMap_keyfun {α β : Type} (l : List (String × α))
    (h : String → Option (String × β)) (hkey : ∀ k p, h k = some p → p.1 = k)
    (s : String) :
    mapLookup (l.filterMap (fun p => h p.1)) s =
      if (mapLookup l s).isSome then (h s).map Prod.snd else none := by
  induction l with
  | nil => simp [mapLookup_nil]
  | cons p rest ih =>
      obtain ⟨k, v⟩ := p
      by_cases hk : k = s
      · subst hk
        cases hh : h k with
        | some q =>
            obtain ⟨qk, qv⟩ := q
            have hq : qk = k := hkey k (qk, qv) hh
            subst hq
            simp [List.filterMap_cons, hh, mapLookup_cons]
        | none =>
            rw [List.filterMap_cons, hh, ih]
            rw [mapLookup_cons, if_pos rfl]
            simp only [Option.isSome_some, if_true, hh, Option.map_none]
            cases hr : (mapLookup rest k).isSome <;> simp [hr]
      · cases hh : h k with
        | some q =>
            obtain ⟨qk, qv⟩ := q
            have hq : qk = k := hkey k (qk, qv) hh
            subst hq
            rw [List.filterMap_cons, hh, mapLookup_cons, if_neg hk, ih, mapLookup_cons,
              if_neg hk]
        | none =>
            rw [List.filterMap_cons, hh, ih, mapLookup_cons, if_neg hk]

theorem mapLookup_insert_self {α : Type} (l : List (String × α)) (k : String) (v : α) :
    mapLookup (mapInsert l k v) k = some v := by
  induction l with
  | nil => simp [mapInsert, mapLookup_cons]
  | cons p rest ih =>
      obtain ⟨k', v'⟩ := p
      by_cases hk : k' = k
      · simp [mapInsert, hk, mapLookup_cons]
      · simp [mapInsert, hk, mapLookup_cons, ih]

theorem mapLookup_insert_ne {α : Type} (l : List (String × α)) (k s : String) (v : α)
    (h : s ≠ k) : mapLookup (mapInsert l k v) s = mapLookup l s := by
  have hk : k ≠ s := Ne.symm h
  induction l with
  | nil => simp [mapInsert, mapLookup_cons, mapLookup_nil, hk]
  | cons p rest ih =>
      obtain ⟨k', v'⟩ := p
      by_cases hkk : k' = k
      · subst hkk
        simp [mapInsert, mapLookup_cons, hk]
      · simp only [mapInsert, if_neg hkk, mapLookup_cons]
        by_cases hs : k' = s
        · simp [hs]
        · simp [hs, ih]

theorem mapLookup_insert_isSome {α : Type} (l : List (String × α)) (k s : String) (v : α) :
    (mapLookup (mapInsert l k v) s).isSome ↔ (s = k ∨ (mapLookup l s).isSome) := by
  by_cases h : s = k
  · subst h
    simp [mapLookup_insert_self]
  · simp [mapLookup_insert_ne l k s v h, h]

theorem mapLookup_mem {α : Type} {l : List (String × α)} {s : String} {v : α}
    (h : mapLookup l s = some v) : (s, v) ∈ l := by
  induction l with
  | nil => simp [mapLookup_nil] at h
  | cons p rest ih =>
      obtain ⟨k, w⟩ := p
      rw [mapLookup_cons] at h
      by_cases hk : k = s
      · subst hk
        rw [if_pos rfl] at h
        obtain rfl : w = v := by simpa using h
        exact List.mem_cons_self _ _
      · rw [if_neg hk] at h
        exact List.mem_cons_of_mem _ (ih h)

theorem mem_mapLookup_isSome {α : Type} {l : List (String × α)} {s : String} {v : α}
    (h : (s, v) ∈ l) : (mapLookup l s).isSome := by
  induction l with
  | nil => simp at h
  | cons p rest ih =>
      obtain ⟨k, w⟩ := p
      rw [mapLookup_cons]
      rcases List.mem_cons.mp h with heq | hmem
      · have hk : k = s := congrArg Prod.fst heq.symm
        simp [hk]
      · by_cases hk : k = s
        · simp [hk]
        · rw [if_neg hk]
          exact ih hmem

theorem mapLookup_eq_none_iff {α : Type} (l : List (String × α)) (s : String) :
    mapLookup l s = none ↔ ∀ v, (s, v) ∉ l := by
  constructor
  · intro h v hv
    have hs := mem_mapLookup_isSome hv
    rw [h] at hs
    simp at hs
  · intro h
    cases hl : mapLookup l s with
    | none => rfl
    | some v => exact absurd (mapLookup_mem hl) (h v)

theorem mapLookup_eq_some_of_nodup_mem {α : Type} {l : List (String × α)} {s : String}
    {v : α} (hn : (l.map Prod.fst).Nodup) (h : (s, v) ∈ l) : mapLookup l s = some v := by
  induction l with
  | nil => simp at h
  | cons p rest ih =>
      obtain ⟨k, w⟩ := p
      simp only [List.map_cons, List.nodup_cons] at hn
      rw [mapLookup_cons]
      rcases List.mem_cons.mp h with heq | hmem
      · have hk : k = s := congrArg Prod.fst heq.symm
        have hw : w = v := congrArg Prod.snd heq.symm
        simp [hk, hw]
      · have hk : k ≠ s := by
          intro hh
          subst hh
          exact hn.1 (List.mem_map.mpr ⟨(k, v), hmem, rfl⟩)
        rw [if_neg hk]
        exact ih hn.2 hmem

theorem mapLookup_filter_of_first {α : Type} {l : List (String × α)} {s : String} {v : α}
    (f : String × α → Bool) (hl : mapLookup l s = some v) (hf : f (s, v) = true) :
    mapLookup (l.filter f) s = some v := by
  induction l with
  | nil => simp [mapLookup_nil] at hl
  | cons p rest ih =>
      obtain ⟨k, w⟩ := p
      rw [mapLookup_cons] at hl
      by_cases hk : k = s
      · subst hk
        rw [if_pos rfl] at hl
        obtain rfl : w = v := by simpa using hl
        simp [List.filter_cons, hf, mapLookup_cons]
      · rw [if_neg hk] at hl
        by_cases hfk : f (k, w) <;>
          simp [List.filter_cons, hfk, mapLookup_cons, hk, ih hl]

theorem mapLookup_filter_none {α : Type} {l : List (String × α)} {s : String}
    (f : String × α → Bool) (hl : mapLookup l s = none) :
    mapLookup (l.filter f) s = none := by
  induction l with
  | nil => exact hl
  | cons p rest ih =>
      obtain ⟨k, w⟩ := p
      rw [mapLookup_cons] at hl
      by_cases hk : k = s
      · rw [if_pos hk] at hl
        exact absurd hl (by simp)
      · rw [if_neg hk] at hl
        by_cases hfk : f (k, w) <;>
          simp [List.filter_cons, hfk, mapLookup_cons, hk, ih hl]

/-! Brightness conversion lemmas and claim C1. -/

theorem brightnessRange_ratCast : ((brightness.BrightnessRange : ℕ) : ℚ) = 59600 := by
  norm_num [brightness.BrightnessRange, brightness.MaxBrightness, brightness.MinBrightness]

theorem PercentToNits_eq (p : ℕ) (hp : p ≤ 100) :
    brightness.PercentToNits p = 596 * p + 400 := by
  have hnot : ¬ p > 100 := by omega
  have hcast : ((p : ℕ) : ℚ) * ((brightness.BrightnessRange : ℕ) : ℚ) / 100
      = ((596 * p : ℕ) : ℚ) := by
    rw [brightnessRange_ratCast]
    push_cast
    ring
  unfold brightness.PercentToNits
  rw [if_neg hnot, hcast, Int.floor_natCast, Int.toNat_natCast]
  unfold brightness.ClampNits brightness.MinBrightness brightness.MaxBrightness
  have h1 : ¬ (596 * p + 400 < 400) := by omega
  have h2 : ¬ (596 * p + 400 > 60000) := by omega
  rw [if_neg h1, if_neg h2]

theorem NitsToPercent_of_exact (p : ℕ) (hp : p ≤ 100) :
    brightness.NitsToPercent (596 * p + 400) = p := by
  have h1 : ¬ (596 * p + 400 < brightness.MinBrightness) := by
    unfold brightness.MinBrightness
    omega
  have h2 : ¬ (596 * p + 400 > brightness.MaxBrightness) := by
    unfold brightness.MaxBrightness
    omega
  have hclamp : brightness.ClampNits (596 * p + 400) = 596 * p + 400 := by
    unfold brightness.ClampNits
    rw [if_neg h1, if_neg h2]
  have hval : (((596 * p + 400 : ℕ) : ℚ) - ((brightness.MinBrightness : ℕ) : ℚ))
      / ((brightness.BrightnessRange : ℕ) : ℚ) * 100 = ((p : ℕ) : ℚ) := by
    rw [brightnessRange_ratCast]
    unfold brightness.MinBrightness
    push_cast
    field_simp
    ring
  unfold brightness.NitsToPercent
  rw [hclamp, hval, round_natCast, Int.toNat_natCast]

/-- C1: for every integer percent p with 0 ≤ p ≤ 100, converting p to nits
with PercentToNits and converting the result back with NitsToPercent yields
exactly p. -/
theorem claim_c1_roundtrip (p : ℕ) (hp : p ≤ 100) :
    brightness.NitsToPercent (brightness.PercentToNits p) = p := by
  rw [PercentToNits_eq p hp]
  exact NitsToPercent_of_exact p hp

/-- C1 witness: the round trip at the concrete percentage 42. -/
theorem claim_c1_roundtrip_witness :
    42 ≤ 100 ∧ brightness.NitsToPercent (brightness.PercentToNits 42) = 42 :=
  ⟨by decide, claim_c1_roundtrip 42 (by decide)⟩

/-! Display closed-state lemmas and claim C4. -/

theorem display_step_closed (d : hid.Display) (op : hid.DisplayOp) (h : d.closed = true) :
    d.step op = (hid.closedResult op, d, []) := by
  cases op <;>
    simp [hid.Display.step, hid.Display.GetBrightness, hid.Display.SetBrightness,
      hid.Display.Close, h, hid.closedResult]

theorem runDisplayOps_closed (d : hid.Display) (h : d.closed = true)
    (ops : List hid.DisplayOp) :
    hid.runDisplayOps d ops = (ops.map (fun op => (op, hid.closedResult op, [])), d) := by
  induction ops with
  | nil => simp [hid.runDisplayOps]
  | cons op rest ih => simp [hid.runDisplayOps, display_step_closed d op h, ih]

theorem close_sets_closed (d : hid.Display) : ((hid.Display.Close d).2.1).closed = true := by
  unfold hid.Display.Close
  by_cases h : d.closed <;> simp [h]

/-- C4: after Close has been called once on a display, every subsequent
GetBrightness and SetBrightness returns the distinguished display-closed
error with no transport interaction, and every second and later Close
returns ok with no transport interaction; this holds along any sequence of
subsequent operations. -/
theorem claim_c4_closed_display (d : hid.Display) (ops : List hid.DisplayOp) :
    ∀ x ∈ (hid.runDisplayOps ((hid.Display.Close d).2.1) ops).1,
      x.2.2 = [] ∧
      (x.1 = hid.DisplayOp.getBrightness →
        x.2.1 = hid.OpResult.got (.error hid.ErrDisplayClosed)) ∧
      (∀ p, x.1 = hid.DisplayOp.setBrightness p →
        x.2.1 = hid.OpResult.setRes (.error hid.ErrDisplayClosed)) ∧
      (x.1 = hid.DisplayOp.close → x.2.1 = hid.OpResult.closeRes (.ok ())) := by
  rw [runDisplayOps_closed _ (close_sets_closed d)]
  intro x hx
  rw [List.mem_map] at hx
  obtain ⟨op, hop, rfl⟩ := hx
  cases op <;> simp [hid.closedResult]

/-- C4 witness: the closed-display behaviour at a concrete display and a
concrete operation sequence containing a read, a write and a second close. -/
theorem claim_c4_closed_display_witness :
    (hid.DisplayOp.close, hid.OpResult.closeRes (.ok ()), ([] : List hid.TransportCall)).2.2 = [] ∧
      ((hid.DisplayOp.close, hid.OpResult.closeRes (.ok ()), ([] : List hid.TransportCall)).1 =
          hid.DisplayOp.getBrightness →
        (hid.DisplayOp.close, hid.OpResult.closeRes (.ok ()), ([] : List hid.TransportCall)).2.1 =
          hid.OpResult.got (.error hid.ErrDisplayClosed)) ∧
      (∀ p, (hid.DisplayOp.close, hid.OpResult.closeRes (.ok ()), ([] : List hid.TransportCall)).1 =
          hid.DisplayOp.setBrightness p →
        (hid.DisplayOp.close, hid.OpResult.closeRes (.ok ()), ([] : List hid.TransportCall)).2.1 =
          hid.OpResult.setRes (.error hid.ErrDisplayClosed)) ∧
      ((hid.DisplayOp.close, hid.OpResult.closeRes (.ok ()), ([] : List hid.TransportCall)).1 =
          hid.DisplayOp.close →
        (hid.DisplayOp.close, hid.OpResult.closeRes (.ok ()), ([] : List hid.TransportCall)).2.1 =
          hid.OpResult.closeRes (.ok ())) :=
  claim_c4_closed_display fxDisplay
    [hid.DisplayOp.getBrightness, hid.DisplayOp.setBrightness 20, hid.DisplayOp.close]
    (hid.DisplayOp.close, hid.OpResult.closeRes (.ok ()), [])
    (by rw [runDisplayOps_closed _ (close_sets_closed fxDisplay)]; simp [hid.closedResult])

/-! Manager refresh lemmas and claims C2, C3. -/

theorem buildCurrentSerials_isSome (devs : List hid.DeviceInfo) (s : String) :
    (mapLookup (hid.buildCurrentSerials devs) s).isSome ↔
      s ∈ devs.map (fun i => i.Serial) := by
  suffices h : ∀ acc : List (String × hid.DeviceInfo),
      (mapLookup (devs.foldl (fun acc info => mapInsert acc info.Serial info) acc) s).isSome ↔
        (s ∈ devs.map (fun i => i.Serial) ∨ (mapLookup acc s).isSome) by
    have h0 := h []
    rw [mapLookup_nil] at h0
    simpa [hid.buildCurrentSerials] using h0
  induction devs with
  | nil => intro acc; simp
  | cons i rest ih =>
      intro acc
      rw [List.foldl_cons, ih (mapInsert acc i.Serial i), mapLookup_insert_isSome]
      simp only [List.map_cons, List.mem_cons]
      tauto

theorem RefreshDisplays_ok_parts (m : hid.Manager) (devs : List hid.DeviceInfo)
    (h : m.enumerator = .ok devs) :
    (hid.RefreshDisplays m).2 = none ∧
    (hid.RefreshDisplays m).1.displays =
      (m.displays.filter
          (fun p => (mapLookup (hid.buildCurrentSerials devs) p.1).isSome)) ++
        ((hid.buildCurrentSerials devs).filterMap (fun p =>
          if (mapLookup
                (m.displays.filter
                  (fun q => (mapLookup (hid.buildCurrentSerials devs) q.1).isSome))
                p.1).isSome then none
          else
            match m.opener p.1 with
            | .ok device => some (p.1, hid.NewDisplay device)
            | .error _ => none)) := by
  unfold hid.RefreshDisplays
  rw [h]
  exact ⟨rfl, rfl⟩

/-- C2: if the enumerator succeeds, RefreshDisplays returns no error, and a
serial is a key of the resulting map exactly when it was enumerated and is
not a serial that was absent before and whose opener call failed during
this refresh; in particular an opener failure only skips that serial. -/
theorem claim_c2_refresh_keys (m : hid.Manager) (devs : List hid.DeviceInfo)
    (h : m.enumerator = .ok devs) :
    (hid.RefreshDisplays m).2 = none ∧
    ∀ s, (mapLookup (hid.RefreshDisplays m).1.displays s).isSome ↔
      (s ∈ devs.map (fun i => i.Serial) ∧
        ¬ (mapLookup m.displays s = none ∧ ∃ e, m.opener s = .error e)) := by
  obtain ⟨herr, hdisp⟩ := RefreshDisplays_ok_parts m devs h
  refine ⟨herr, ?_⟩
  intro s
  rw [hdisp, mapLookup_append_isSome]
  have hkeptLookup :
      mapLookup
          (m.displays.filter
            (fun q => (mapLookup (hid.buildCurrentSerials devs) q.1).isSome)) s =
        if (mapLookup (hid.buildCurrentSerials devs) s).isSome then mapLookup m.displays s
        else none :=
    mapLookup_filter_key m.displays
      (fun k => (mapLookup (hid.buildCurrentSerials devs) k).isSome) s
  have hopened :
      mapLookup
          ((hid.buildCurrentSerials devs).filterMap (fun p =>
            if (mapLookup
                  (m.displays.filter
                    (fun q => (mapLookup (hid.buildCurrentSerials devs) q.1).isSome))
                  p.1).isSome then none
            else
              match m.opener p.1 with
              | .ok device => some (p.1, hid.NewDisplay device)
              | .error _ => none)) s =
        if (mapLookup (hid.buildCurrentSerials devs) s).isSome then
          (if (mapLookup
                (m.displays.filter
                  (fun q => (mapLookup (hid.buildCurrentSerials devs) q.1).isSome))
                s).isSome then none
           else
             match m.opener s with
             | .ok device => some (s, hid.NewDisplay device)
             | .error _ => none).map Prod.snd
        else none := by
    have hkey : ∀ k p,
        (if (mapLookup
              (m.displays.filter
                (fun q => (mapLookup (hid.buildCurrentSerials devs) q.1).isSome))
              k).isSome then none
         else
           match m.opener k with
           | .ok device => some (k, hid.NewDisplay device)
           | .error _ => none) = some p → p.1 = k := by
      intro k p hp
      by_cases hc :
          (mapLookup
            (m.displays.filter
              (fun q => (mapLookup (hid.buildCurrentSerials devs) q.1).isSome))
            k).isSome
      · rw [if_pos hc] at hp
        cases hp
      · rw [if_neg hc] at hp
        cases hop : m.opener k with
        | ok device =>
            rw [hop] at hp
            obtain rfl : (k, hid.NewDisplay device) = p := by simpa using hp
            rfl
        | error e =>
            rw [hop] at hp
            cases hp
    simpa using
      mapLookup_filterMap_keyfun (hid.buildCurrentSerials devs)
        (fun k =>
          if (mapLookup
                (m.displays.filter
                  (fun q => (mapLookup (hid.buildCurrentSerials devs) q.1).isSome))
                k).isSome then none
          else
            match m.opener k with
            | .ok device => some (k, hid.NewDisplay device)
            | .error _ => none)
        hkey s
  rw [hkeptLookup, hopened]
  cases hCS : (mapLookup (hid.buildCurrentSerials devs) s).isSome with
  | false =>
      have hmem : ¬ s ∈ devs.map (fun i => i.Serial) := by
        rw [← buildCurrentSerials_isSome devs s, hCS]
        simp
      simp [hmem]
  | true =>
      have hmem : s ∈ devs.map (fun i => i.Serial) := by
        rw [← buildCurrentSerials_isSome devs s, hCS]
      cases hms : mapLookup m.displays s with
      | some d => simp [hmem, hms]
      | none =>
          have hkil :
              mapLookup
                (m.displays.filter
                  (fun q => (mapLookup (hid.buildCurrentSerials devs) q.1).isSome)) s =
                none := by
            rw [hkeptLookup, if_pos hCS]
            exact hms
          cases hop : m.opener s with
          | ok device => simp [hmem, hms, hop, hkil]
          | error e => simp [hmem, hms, hop, hkil]

/-- C2 witness: the refresh key characterization on the fixture manager
(serial A already open; enumeration reports A, B, C; opener succeeds for B
and fails for C), instantiated at serial B. -/
theorem claim_c2_refresh_keys_witness :
    (hid.RefreshDisplays fxManager).2 = none ∧
      ((mapLookup (hid.RefreshDisplays fxManager).1.displays "B").isSome ↔
        ("B" ∈ [fxInfo, fxInfoB, fxInfoC].map (fun i => i.Serial) ∧
          ¬ (mapLookup fxManager.displays "B" = none ∧
              ∃ e, fxManager.opener "B" = .error e))) :=
  ⟨(claim_c2_refresh_keys fxManager [fxInfo, fxInfoB, fxInfoC] rfl).1,
   (claim_c2_refresh_keys fxManager [fxInfo, fxInfoB, fxInfoC] rfl).2 "B"⟩

/-- C3: if the enumerator fails, RefreshDisplays returns the wrapped error
and the manager — in particular its displays map, every entry and closed
flag included — is exactly what it was before the call. -/
theorem claim_c3_refresh_enum_error (m : hid.Manager) (e : hid.GoError)
    (h : m.enumerator = .error e) :
    (hid.RefreshDisplays m).1 = m ∧
      (hid.RefreshDisplays m).2 = some (.wrap "failed to enumerate displays" e) := by
  unfold hid.RefreshDisplays
  rw [h]
  exact ⟨rfl, rfl⟩

/-- C3 witness: the failing-enumerator behaviour on the fixture manager
whose enumerator fails. -/
theorem claim_c3_refresh_enum_error_witness :
    (hid.RefreshDisplays fxManagerErr).1 = fxManagerErr ∧
      (hid.RefreshDisplays fxManagerErr).2 =
        some (.wrap "failed to enumerate displays" (.deviceErr "enumerate failed")) :=
  claim_c3_refresh_enum_error fxManagerErr (.deviceErr "enumerate failed") rfl

/-! Monitor debounce lemmas and claim C7. -/

theorem remove_not_add_cond (e : udev.UEvent) (ha : e.action = .remove) :
    ¬ (e.action = udev.UAction.add ∧ e.devtype ≠ "usb_device") := by
  rw [ha]
  rintro ⟨h1, _⟩
  cases h1

theorem remove_debounced (st : udev.MonitorState) (now : ℤ) (e : udev.UEvent) (t : ℤ)
    (ha : e.action = .remove) (hl : mapLookup st.lastRemoveTime e.product = some t)
    (hlt : now - t < udev.removeEventDebounce) :
    udev.handleEvent st now e = (st, none) := by
  simp [udev.handleEvent, remove_not_add_cond e ha, ha, udev.shouldDebounceRemove, hl, hlt]

theorem remove_recorded (st : udev.MonitorState) (now : ℤ) (e : udev.UEvent)
    (ha : e.action = .remove)
    (hnd : ∀ t, mapLookup st.lastRemoveTime e.product = some t →
      udev.removeEventDebounce ≤ now - t) :
    udev.handleEvent st now e =
      (⟨(mapInsert st.lastRemoveTime e.product now).filter
          (fun p => !(decide (now - p.2 > udev.timeMinute)))⟩,
        some .eventRemove) := by
  have hdeb : (match mapLookup st.lastRemoveTime e.product with
      | some lastTime => decide (now - lastTime < udev.removeEventDebounce)
      | none => false) = false := by
    cases hl : mapLookup st.lastRemoveTime e.product with
    | none => rfl
    | some t =>
        simp only [decide_eq_false_iff_not, not_lt]
        exact hnd t hl
  simp [udev.handleEvent, remove_not_add_cond e ha, ha, udev.shouldDebounceRemove, hdeb]

theorem remove_recorded_lookup (st : udev.MonitorState) (now : ℤ) (e : udev.UEvent)
    (ha : e.action = .remove)
    (hnd : ∀ t, mapLookup st.lastRemoveTime e.product = some t →
      udev.removeEventDebounce ≤ now - t) :
    mapLookup (udev.handleEvent st now e).1.lastRemoveTime e.product = some now := by
  rw [remove_recorded st now e ha hnd]
  apply mapLookup_filter_of_first _ (mapLookup_insert_self _ _ _)
  simp only [Bool.not_eq_true', decide_eq_false_iff_not, not_lt, udev.timeMinute]
  omega

/-- C7: a remove whose PRODUCT has a recorded last-remove time less than
the debounce window old is dropped with the state untouched; a remove
otherwise is delivered and records its time; hence two removes on the same
PRODUCT within the window yield exactly one delivery while removes on
distinct fresh PRODUCT strings are each delivered; and an accepted add
(DEVTYPE usb_device) is always delivered, for every state. -/
theorem claim_c7_debounce :
    (∀ (st : udev.MonitorState) (now : ℤ) (e : udev.UEvent) (t : ℤ),
        e.action = .remove →
        mapLookup st.lastRemoveTime e.product = some t →
        now - t < udev.removeEventDebounce →
        udev.handleEvent st now e = (st, none)) ∧
    (∀ (st : udev.MonitorState) (now : ℤ) (e : udev.UEvent),
        e.action = .remove →
        (∀ t, mapLookup st.lastRemoveTime e.product = some t →
          udev.removeEventDebounce ≤ now - t) →
        (udev.handleEvent st now e).2 = some .eventRemove ∧
          mapLookup (udev.handleEvent st now e).1.lastRemoveTime e.product = some now) ∧
    (∀ (st : udev.MonitorState) (t₁ t₂ : ℤ) (e₁ e₂ : udev.UEvent),
        e₁.action = .remove → e₂.action = .remove → e₁.product = e₂.product →
        mapLookup st.lastRemoveTime e₁.product = none →
        t₁ ≤ t₂ → t₂ - t₁ < udev.removeEventDebounce →
        (udev.handleEvent st t₁ e₁).2 = some .eventRemove ∧
          (udev.handleEvent (udev.handleEvent st t₁ e₁).1 t₂ e₂).2 = none) ∧
    (∀ (st : udev.MonitorState) (t₁ t₂ : ℤ) (e₁ e₂ : udev.UEvent),
        e₁.action = .remove → e₂.action = .remove → e₁.product ≠ e₂.product →
        mapLookup st.lastRemoveTime e₁.product = none →
        mapLookup st.lastRemoveTime e₂.product = none →
        (udev.handleEvent st t₁ e₁).2 = some .eventRemove ∧
          (udev.handleEvent (udev.handleEvent st t₁ e₁).1 t₂ e₂).2 = some .eventRemove) ∧
    (∀ (st : udev.MonitorState) (now : ℤ) (e : udev.UEvent),
        e.action = .add → e.devtype = "usb_device" →
        udev.handleEvent st now e = (st, some .eventAdd)) := by
  have hfresh : ∀ (st : udev.MonitorState) (p : String),
      mapLookup st.lastRemoveTime p = none →
      ∀ (now t : ℤ), mapLookup st.lastRemoveTime p = some t →
        udev.removeEventDebounce ≤ now - t := by
    intro st p hnone now t ht
    rw [hnone] at ht
    cases ht
  refine ⟨?_, ?_, ?_, ?_, ?_⟩
  · intro st now e t ha hl hlt
    exact remove_debounced st now e t ha hl hlt
  · intro st now e ha hnd
    refine ⟨?_, remove_recorded_lookup st now e ha hnd⟩
    rw [remove_recorded st now e ha hnd]
  · intro st t₁ t₂ e₁ e₂ ha₁ ha₂ hpp hl hle hlt
    have hnd₁ := hfresh st e₁.product hl t₁
    refine ⟨by rw [remove_recorded st t₁ e₁ ha₁ hnd₁], ?_⟩
    have hlook : mapLookup (udev.handleEvent st t₁ e₁).1.lastRemoveTime e₂.product
        = some t₁ := by
      rw [← hpp]
      exact remove_recorded_lookup st t₁ e₁ ha₁ hnd₁
    have := remove_debounced (udev.handleEvent st t₁ e₁).1 t₂ e₂ t₁ ha₂ hlook (by omega)
    rw [this]
  · intro st t₁ t₂ e₁ e₂ ha₁ ha₂ hpp hl₁ hl₂
    have hnd₁ := hfresh st e₁.product hl₁ t₁
    refine ⟨by rw [remove_recorded st t₁ e₁ ha₁ hnd₁], ?_⟩
    have hlook : mapLookup (udev.handleEvent st t₁ e₁).1.lastRemoveTime e₂.product
        = none := by
      rw [remove_recorded st t₁ e₁ ha₁ hnd₁]
      apply mapLookup_filter_none
      rw [mapLookup_insert_ne _ _ _ _ (Ne.symm hpp)]
      exact hl₂
    have hnd₂ := hfresh (udev.handleEvent st t₁ e₁).1 e₂.product hlook t₂
    rw [remove_recorded (udev.handleEvent st t₁ e₁).1 t₂ e₂ ha₂ hnd₂]
  · intro st now e ha hd
    simp [udev.handleEvent, ha, hd]

/-- C7 witness: on the empty monitor state, a remove of the fixture PRODUCT
at time 0 is delivered, and a second remove of the same PRODUCT 400 ms
later is dropped. -/
theorem claim_c7_debounce_witness :
    (udev.handleEvent ⟨[]⟩ 0 ⟨.remove, "5ac/1114/100", ""⟩).2 = some .eventRemove ∧
      (udev.handleEvent (udev.handleEvent ⟨[]⟩ 0 ⟨.remove, "5ac/1114/100", ""⟩).1
          400000000 ⟨.remove, "5ac/1114/100", ""⟩).2 = none :=
  claim_c7_debounce.2.2.1 ⟨[]⟩ 0 400000000
    ⟨.remove, "5ac/1114/100", ""⟩ ⟨.remove, "5ac/1114/100", ""⟩
    rfl rfl rfl rfl (by decide) (by decide)

/-! Matcher pattern lemmas and claim C8. -/

theorem matchCore_iff (l : List Char) :
    udev.matchCore l = true ↔
      ∃ a c t, (a = 'a' ∨ a = 'A') ∧ (c = 'c' ∨ c = 'C') ∧ t ≠ [] ∧
        (∀ ch ∈ t, ch ≠ '/') ∧
        l = '5' :: a :: c :: '/' :: '1' :: '1' :: '1' :: '4' :: '/' :: t := by
  constructor
  · intro h
    unfold udev.matchCore at h
    split at h
    · rename_i c5 a c s1 d1 d2 d3 d4 s2 tail
      simp only [Bool.and_eq_true, Bool.or_eq_true, beq_iff_eq, List.all_eq_true,
        bne_iff_ne, ne_eq, Bool.not_eq_true'] at h
      obtain ⟨⟨⟨⟨⟨⟨⟨⟨⟨⟨h5, hac⟩, hcc⟩, hs1⟩, hd1⟩, hd2⟩, hd3⟩, hd4⟩, hs2⟩, hne⟩, hall⟩ := h
      subst h5 hs1 hd1 hd2 hd3 hd4 hs2
      refine ⟨a, c, tail, hac, hcc, ?_, ?_, rfl⟩
      · intro hnil
        rw [hnil] at hne
        simp at hne
      · intro ch hch
        exact hall ch hch
    · cases h
  · rintro ⟨a, c, t, ha, hc, ht, hslash, rfl⟩
    rcases ha with rfl | rfl <;> rcases hc with rfl | rfl <;>
      simp [udev.matchCore, List.all_eq_true, bne_iff_ne, ht] <;>
      exact fun x hx => hslash x hx

theorem zeroBranch_iff (l : List Char) :
    udev.zeroBranch l = true ↔ ∃ rest, l = '0' :: rest ∧ udev.matchCore rest = true := by
  cases l with
  | nil => simp [udev.zeroBranch]
  | cons z rest =>
      simp only [udev.zeroBranch, Bool.and_eq_true, beq_iff_eq]
      constructor
      · rintro ⟨rfl, hm⟩
        exact ⟨rest, rfl, hm⟩
      · rintro ⟨rest', heq, hm⟩
        injection heq with h1 h2
        subst h1
        subst h2
        exact ⟨rfl, hm⟩

/-- C8: the anchored PRODUCT matcher accepts exactly the strings built from
one of the eight vendor spellings (5 with optional leading zero and
case-insensitive a and c), the product segment 1114, and a non-empty
slash-free tail; in particular it accepts the five spellings of the claim
on the tail 100 and rejects a different product, a non-Apple vendor, and a
product segment that merely starts with 1114. -/
theorem claim_c8_product_pattern :
    (∀ s : String, udev.productPatternMatches s = true ↔
      ∃ v t, v ∈ udev.vendorForms ∧ t ≠ [] ∧ (∀ ch ∈ t, ch ≠ '/') ∧
        s.toList = v ++ ('/' :: '1' :: '1' :: '1' :: '4' :: '/' :: t)) ∧
    udev.productPatternMatches "5ac/1114/100" = true ∧
    udev.productPatternMatches "05ac/1114/100" = true ∧
    udev.productPatternMatches "5AC/1114/100" = true ∧
    udev.productPatternMatches "5Ac/1114/100" = true ∧
    udev.productPatternMatches "05AC/1114/100" = true ∧
    udev.productPatternMatches "5ac/8286/100" = false ∧
    udev.productPatternMatches "1234/1114/100" = false ∧
    udev.productPatternMatches "5ac/11149/100" = false := by
  refine ⟨?_, by decide, by decide, by decide, by decide, by decide, by decide, by decide,
    by decide⟩
  intro s
  unfold udev.productPatternMatches
  rw [Bool.or_eq_true, matchCore_iff, zeroBranch_iff]
  constructor
  · rintro (⟨a, c, t, ha, hc, ht, hsl, heq⟩ | ⟨rest, heq0, hcore⟩)
    · refine ⟨['5', a, c], t, ?_, ht, hsl, by rw [heq]; rfl⟩
      rcases ha with rfl | rfl <;> rcases hc with rfl | rfl <;> simp [udev.vendorForms]
    · obtain ⟨a, c, t, ha, hc, ht, hsl, heq⟩ := matchCore_iff rest |>.mp hcore
      refine ⟨['0', '5', a, c], t, ?_, ht, hsl, by rw [heq0, heq]; rfl⟩
      rcases ha with rfl | rfl <;> rcases hc with rfl | rfl <;> simp [udev.vendorForms]
  · rintro ⟨v, t, hv, ht, hsl, heq⟩
    simp only [udev.vendorForms, List.mem_cons, List.not_mem_nil, or_false] at hv
    rcases hv with rfl | rfl | rfl | rfl | rfl | rfl | rfl | rfl
    · exact Or.inl ⟨'a', 'c', t, Or.inl rfl, Or.inl rfl, ht, hsl, heq⟩
    · exact Or.inl ⟨'a', 'C', t, Or.inl rfl, Or.inr rfl, ht, hsl, heq⟩
    · exact Or.inl ⟨'A', 'c', t, Or.inr rfl, Or.inl rfl, ht, hsl, heq⟩
    · exact Or.inl ⟨'A', 'C', t, Or.inr rfl, Or.inr rfl, ht, hsl, heq⟩
    · exact Or.inr ⟨_, heq, (matchCore_iff _).mpr ⟨'a', 'c', t, Or.inl rfl, Or.inl rfl, ht, hsl, rfl⟩⟩
    · exact Or.inr ⟨_, heq, (matchCore_iff _).mpr ⟨'a', 'C', t, Or.inl rfl, Or.inr rfl, ht, hsl, rfl⟩⟩
    · exact Or.inr ⟨_, heq, (matchCore_iff _).mpr ⟨'A', 'c', t, Or.inr rfl, Or.inl rfl, ht, hsl, rfl⟩⟩
    · exact Or.inr ⟨_, heq, (matchCore_iff _).mpr ⟨'A', 'C', t, Or.inr rfl, Or.inr rfl, ht, hsl, rfl⟩⟩

/-- C8 witness: the characterization instantiated at the accepted string
05AC/1114/1 and at the rejected string 5ac/11149/100. -/
theorem claim_c8_product_pattern_witness :
    (udev.productPatternMatches "05AC/1114/1" = true ↔
      ∃ v t, v ∈ udev.vendorForms ∧ t ≠ [] ∧ (∀ ch ∈ t, ch ≠ '/') ∧
        "05AC/1114/1".toList = v ++ ('/' :: '1' :: '1' :: '1' :: '4' :: '/' :: t)) ∧
    udev.productPatternMatches "5ac/11149/100" = false :=
  ⟨claim_c8_product_pattern.1 "05AC/1114/1", claim_c8_product_pattern.2.2.2.2.2.2.2.2⟩

/-! Rate limiter lemmas. -/

theorem allow_of_empty (lim : dbus.Limiter) (now : ℚ) (h : lim.advance now < 1) :
    lim.allow now = (false, lim) := by
  unfold dbus.Limiter.allow
  rw [if_neg]
  rintro ⟨h1, _⟩
  linarith

theorem allow_tokens_of_true (lim : dbus.Limiter) (now : ℚ) (h : (lim.allow now).1 = true) :
    (lim.allow now).2.tokens = lim.advance now - 1 := by
  unfold dbus.Limiter.allow at h ⊢
  by_cases hc : 1 ≤ lim.advance now ∧ 1 ≤ lim.burst
  · rw [if_pos hc]
  · rw [if_neg hc] at h
    simp at h

theorem allow_at_same (k : ℚ) (now : ℚ) (h1 : 1 ≤ k) (h5 : k ≤ 5) :
    dbus.Limiter.allow ⟨20, 5, k, now⟩ now = (true, ⟨20, 5, k - 1, now⟩) := by
  have hadv : dbus.Limiter.advance ⟨20, 5, k, now⟩ now = k := by
    unfold dbus.Limiter.advance
    simp only [sub_self, max_self, zero_mul, add_zero]
    have hk : k ≤ ((5 : ℕ) : ℚ) := by
      push_cast
      linarith
    exact min_eq_left hk
  unfold dbus.Limiter.allow
  rw [hadv, if_pos ⟨h1, by norm_num⟩]

theorem allow_at_same_zero (now : ℚ) :
    dbus.Limiter.allow ⟨20, 5, 0, now⟩ now = (false, ⟨20, 5, 0, now⟩) := by
  apply allow_of_empty
  have hadv : dbus.Limiter.advance ⟨20, 5, 0, now⟩ now = 0 := by
    unfold dbus.Limiter.advance
    simp only [sub_self, max_self, zero_mul, add_zero]
    have hk : (0 : ℚ) ≤ ((5 : ℕ) : ℚ) := by positivity
    exact min_eq_left hk
  rw [hadv]
  norm_num

/-! Display transport error shapes. -/

theorem display_get_ne_rate (d : hid.Display) :
    (hid.Display.GetBrightness d).1 ≠ .error .rateLimitExceeded := by
  unfold hid.Display.GetBrightness
  by_cases h : d.closed
  · simp [h, hid.ErrDisplayClosed]
  · simp only [h, Bool.false_eq_true, if_false]
    cases hr : d.device.GetFeatureReport hid.getRequest <;> simp

theorem display_set_ne_rate (d : hid.Display) (p : ℕ) :
    (hid.Display.SetBrightness d p).1 ≠ .error .rateLimitExceeded := by
  unfold hid.Display.SetBrightness
  by_cases h : d.closed
  · simp [h, hid.ErrDisplayClosed]
  · simp only [h, Bool.false_eq_true, if_false]
    cases hr :
        d.device.SendFeatureReport
          (hid.brightnessReport (brightness.PercentToNits p)) <;> simp

/-! Per-method server limiter lemmas. -/

theorem setB_server (s : dbus.Server) (now : ℚ) (serial : String) (b : ℕ) :
    (dbus.Server.SetBrightness s now serial b).server =
      { s with limiter := (s.limiter.allow now).2 } := by
  unfold dbus.Server.SetBrightness
  dsimp only
  repeat' split
  all_goals rfl

theorem incB_server (s : dbus.Server) (now : ℚ) (serial : String) (step : ℕ) :
    (dbus.Server.IncreaseBrightness s now serial step).server =
      { s with limiter := (s.limiter.allow now).2 } := by
  unfold dbus.Server.IncreaseBrightness
  dsimp only
  repeat' split
  all_goals rfl

theorem decB_server (s : dbus.Server) (now : ℚ) (serial : String) (step : ℕ) :
    (dbus.Server.DecreaseBrightness s now serial step).server =
      { s with limiter := (s.limiter.allow now).2 } := by
  unfold dbus.Server.DecreaseBrightness
  dsimp only
  repeat' split
  all_goals rfl

theorem setAllB_server (s : dbus.Server) (now : ℚ) (b : ℕ) :
    (dbus.Server.SetAllBrightness s now b).server =
      { s with limiter := (s.limiter.allow now).2 } := by
  unfold dbus.Server.SetAllBrightness
  dsimp only
  repeat' split
  all_goals rfl

theorem setB_rate_iff (s : dbus.Server) (now : ℚ) (serial : String) (b : ℕ) :
    (dbus.Server.SetBrightness s now serial b).err = some dbus.ErrRateLimitExceeded ↔
      (s.limiter.allow now).1 = false := by
  unfold dbus.Server.SetBrightness
  dsimp only
  cases h : (s.limiter.allow now).1 with
  | false => simp [h]
  | true =>
      simp only [h, Bool.not_true, Bool.false_eq_true, if_false]
      refine iff_of_false ?_ (by simp)
      intro hc
      split at hc
      · simp [dbus.ErrEmptySerial, dbus.ErrRateLimitExceeded] at hc
      · split at hc
        · simp [dbus.ErrRateLimitExceeded] at hc
        · rename_i d hd
          split at hc
          · rename_i e heq
            obtain rfl : e = hid.GoError.rateLimitExceeded := by
              simpa [dbus.ErrRateLimitExceeded] using hc
            exact display_set_ne_rate d _ heq
          · simp at hc

theorem incB_rate_iff (s : dbus.Server) (now : ℚ) (serial : String) (step : ℕ) :
    (dbus.Server.IncreaseBrightness s now serial step).err =
        some dbus.ErrRateLimitExceeded ↔
      (s.limiter.allow now).1 = false := by
  unfold dbus.Server.IncreaseBrightness
  dsimp only
  cases h : (s.limiter.allow now).1 with
  | false => simp [h]
  | true =>
      simp only [h, Bool.not_true, Bool.false_eq_true, if_false]
      refine iff_of_false ?_ (by simp)
      intro hc
      split at hc
      · simp [dbus.ErrEmptySerial, dbus.ErrRateLimitExceeded] at hc
      · split at hc
        · simp [dbus.ErrInvalidStep, dbus.ErrRateLimitExceeded] at hc
        · split at hc
          · simp [dbus.ErrRateLimitExceeded] at hc
          · rename_i d hd
            split at hc
            · rename_i e heq
              obtain rfl : e = hid.GoError.rateLimitExceeded := by
                simpa [dbus.ErrRateLimitExceeded] using hc
              exact display_get_ne_rate d heq
            · rename_i current heq
              split at hc
              · rename_i e heq2
                obtain rfl : e = hid.GoError.rateLimitExceeded := by
                  simpa [dbus.ErrRateLimitExceeded] using hc
                exact display_set_ne_rate d _ heq2
              · simp at hc

theorem decB_rate_iff (s : dbus.Server) (now : ℚ) (serial : String) (step : ℕ) :
    (dbus.Server.DecreaseBrightness s now serial step).err =
        some dbus.ErrRateLimitExceeded ↔
      (s.limiter.allow now).1 = false := by
  unfold dbus.Server.DecreaseBrightness
  dsimp only
  cases h : (s.limiter.allow now).1 with
  | false => simp [h]
  | true =>
      simp only [h, Bool.not_true, Bool.false_eq_true, if_false]
      refine iff_of_false ?_ (by simp)
      intro hc
      split at hc
      · simp [dbus.ErrEmptySerial, dbus.ErrRateLimitExceeded] at hc
      · split at hc
        · simp [dbus.ErrInvalidStep, dbus.ErrRateLimitExceeded] at hc
        · split at hc
          · simp [dbus.ErrRateLimitExceeded] at hc
          · rename_i d hd
            split at hc
            · rename_i e heq
              obtain rfl : e = hid.GoError.rateLimitExceeded := by
                simpa [dbus.ErrRateLimitExceeded] using hc
              exact display_get_ne_rate d heq
            · rename_i current heq
              split at hc
              · rename_i e heq2
                obtain rfl : e = hid.GoError.rateLimitExceeded := by
                  simpa [dbus.ErrRateLimitExceeded] using hc
                exact display_set_ne_rate d _ heq2
              · simp at hc

theorem setAllB_rate_iff (s : dbus.Server) (now : ℚ) (b : ℕ) :
    (dbus.Server.SetAllBrightness s now b).err = some dbus.ErrRateLimitExceeded ↔
      (s.limiter.allow now).1 = false := by
  unfold dbus.Server.SetAllBrightness
  dsimp only
  cases h : (s.limiter.allow now).1 with
  | false => simp [h]
  | true =>
      simp only [h, Bool.not_true, Bool.false_eq_true, if_false]
      refine iff_of_false ?_ (by simp)
      intro hc
      simp at hc

theorem setB_rate_limited (s : dbus.Server) (now : ℚ) (serial : String) (b : ℕ)
    (h : s.limiter.advance now < 1) :
    dbus.Server.SetBrightness s now serial b =
      ⟨some dbus.ErrRateLimitExceeded, s, [], [], []⟩ := by
  unfold dbus.Server.SetBrightness
  dsimp only
  rw [allow_of_empty s.limiter now h]
  simp

theorem incB_rate_limited (s : dbus.Server) (now : ℚ) (serial : String) (step : ℕ)
    (h : s.limiter.advance now < 1) :
    dbus.Server.IncreaseBrightness s now serial step =
      ⟨some dbus.ErrRateLimitExceeded, s, [], [], []⟩ := by
  unfold dbus.Server.IncreaseBrightness
  dsimp only
  rw [allow_of_empty s.limiter now h]
  simp

theorem decB_rate_limited (s : dbus.Server) (now : ℚ) (serial : String) (step : ℕ)
    (h : s.limiter.advance now < 1) :
    dbus.Server.DecreaseBrightness s now serial step =
      ⟨some dbus.ErrRateLimitExceeded, s, [], [], []⟩ := by
  unfold dbus.Server.DecreaseBrightness
  dsimp only
  rw [allow_of_empty s.limiter now h]
  simp

theorem setAllB_rate_limited (s : dbus.Server) (now : ℚ) (b : ℕ)
    (h : s.limiter.advance now < 1) :
    dbus.Server.SetAllBrightness s now b =
      ⟨some dbus.ErrRateLimitExceeded, s, [], [], []⟩ := by
  unfold dbus.Server.SetAllBrightness
  dsimp only
  rw [allow_of_empty s.limiter now h]
  simp

theorem mutStep_server (s : dbus.Server) (now : ℚ) (m : dbus.MutCall) :
    (dbus.mutStep s now m).server = { s with limiter := (s.limiter.allow now).2 } := by
  cases m with
  | set serial b => exact setB_server s now serial b
  | inc serial n => exact incB_server s now serial n
  | dec serial n => exact decB_server s now serial n
  | setAll b => exact setAllB_server s now b

theorem mutStep_rate_iff (s : dbus.Server) (now : ℚ) (m : dbus.MutCall) :
    (dbus.mutStep s now m).err = some dbus.ErrRateLimitExceeded ↔
      (s.limiter.allow now).1 = false := by
  cases m with
  | set serial b => exact setB_rate_iff s now serial b
  | inc serial n => exact incB_rate_iff s now serial n
  | dec serial n => exact decB_rate_iff s now serial n
  | setAll b => exact setAllB_rate_iff s now b

theorem runMutCalls_length (s : dbus.Server) (now : ℚ) (ms : List dbus.MutCall) :
    (dbus.runMutCalls s now ms).1.length = ms.length := by
  induction ms generalizing s with
  | nil => rfl
  | cons m rest ih => simp [dbus.runMutCalls, ih]

theorem runMutCalls_errs (ms : List dbus.MutCall) :
    ∀ (s : dbus.Server) (now : ℚ) (k : ℕ), k ≤ 5 →
      s.limiter = ⟨20, 5, (k : ℚ), now⟩ →
      ∀ i, i < ms.length →
        ((dbus.runMutCalls s now ms).1[i]? = some (some dbus.ErrRateLimitExceeded) ↔
          k ≤ i) := by
  induction ms with
  | nil =>
      intro s now k hk hlim i hi
      simp at hi
  | cons m rest ih =>
      intro s now k hk hlim i hi
      rcases Nat.eq_zero_or_pos k with rfl | hkpos
      · -- empty bucket: this call and all later ones are rate limited
        have hallow : s.limiter.allow now = (false, s.limiter) := by
          rw [hlim]
          exact_mod_cast allow_at_same_zero now
        cases i with
        | zero =>
            simp only [dbus.runMutCalls, List.getElem?_cons_zero, Option.some.injEq]
            rw [show ((0 : ℕ) ≤ 0 ↔ True) by simp]
            rw [iff_true]
            have := (mutStep_rate_iff s now m).mpr (by rw [hallow])
            simpa using this
        | succ j =>
            simp only [dbus.runMutCalls, List.getElem?_cons_succ]
            have hs' : (dbus.mutStep s now m).server.limiter = ⟨20, 5, ((0 : ℕ) : ℚ), now⟩ := by
              rw [mutStep_server, hallow]
              simpa using hlim
            have hj := ih (dbus.mutStep s now m).server now 0 (by omega) hs' j
              (Nat.lt_of_succ_lt_succ hi)
            simp only [Nat.zero_le, iff_true] at hj ⊢
            exact hj
      · -- at least one token: this call passes the rate check
        have hallow : s.limiter.allow now = (true, ⟨20, 5, (k : ℚ) - 1, now⟩) := by
          rw [hlim]
          exact allow_at_same (k : ℚ) now (by exact_mod_cast hkpos) (by exact_mod_cast hk)
        cases i with
        | zero =>
            simp only [dbus.runMutCalls, List.getElem?_cons_zero, Option.some.injEq]
            have hne : ¬ ((dbus.mutStep s now m).err = some dbus.ErrRateLimitExceeded) := by
              rw [mutStep_rate_iff, hallow]
              simp
            constructor
            · intro hc
              exact absurd hc hne
            · intro hc
              exact absurd hc (by omega)
        | succ j =>
            simp only [dbus.runMutCalls, List.getElem?_cons_succ]
            have hs' : (dbus.mutStep s now m).server.limiter
                = ⟨20, 5, ((k - 1 : ℕ) : ℚ), now⟩ := by
              rw [mutStep_server, hallow]
              have : ((k - 1 : ℕ) : ℚ) = (k : ℚ) - 1 := by
                push_cast [Nat.cast_sub hkpos]
                ring
              simp [this]
            have hj := ih (dbus.mutStep s now m).server now (k - 1) (by omega) hs' j
              (Nat.lt_of_succ_lt_succ hi)
            rw [hj]
            omega

theorem advance_same_zero (now : ℚ) : dbus.Limiter.advance ⟨20, 5, 0, now⟩ now = 0 := by
  unfold dbus.Limiter.advance
  simp only [sub_self, max_self, zero_mul, add_zero]
  have hk : (0 : ℚ) ≤ ((5 : ℕ) : ℚ) := by positivity
  exact min_eq_left hk

theorem getB_no_rate (s : dbus.Server) (serial : String) :
    (dbus.Server.GetBrightness s serial).2.err ≠ some dbus.ErrRateLimitExceeded := by
  unfold dbus.Server.GetBrightness
  dsimp only
  intro hc
  split at hc
  · simp [dbus.ErrEmptySerial, dbus.ErrRateLimitExceeded] at hc
  · split at hc
    · simp [dbus.ErrRateLimitExceeded] at hc
    · rename_i d hd
      split at hc
      · rename_i e heq
        obtain rfl : e = hid.GoError.rateLimitExceeded := by
          simpa [dbus.ErrRateLimitExceeded] using hc
        exact display_get_ne_rate d heq
      · simp at hc

theorem getB_server (s : dbus.Server) (serial : String) :
    (dbus.Server.GetBrightness s serial).2.server = s := by
  unfold dbus.Server.GetBrightness
  dsimp only
  repeat' split
  all_goals rfl

/-- C6: one token bucket of capacity 5 and refill 20 per second gates the
four mutating methods: with the bucket empty each returns the
rate-limit-exceeded error with no manager interaction, no signal and no
transport interaction, leaving the server unchanged; GetBrightness and
ListDisplays are never rate limited and never touch the limiter; and from
a full bucket with no time elapsed, any six mutating calls see the first
five pass the rate check and the sixth fail it. -/
theorem claim_c6_rate_limiter :
    (∀ (s : dbus.Server) (now : ℚ) (serial : String) (b n bAll : ℕ),
        s.limiter.advance now < 1 →
        dbus.Server.SetBrightness s now serial b =
          ⟨some dbus.ErrRateLimitExceeded, s, [], [], []⟩ ∧
        dbus.Server.IncreaseBrightness s now serial n =
          ⟨some dbus.ErrRateLimitExceeded, s, [], [], []⟩ ∧
        dbus.Server.DecreaseBrightness s now serial n =
          ⟨some dbus.ErrRateLimitExceeded, s, [], [], []⟩ ∧
        dbus.Server.SetAllBrightness s now bAll =
          ⟨some dbus.ErrRateLimitExceeded, s, [], [], []⟩) ∧
    (∀ (s : dbus.Server) (serial : String),
        (dbus.Server.GetBrightness s serial).2.err ≠ some dbus.ErrRateLimitExceeded ∧
        (dbus.Server.GetBrightness s serial).2.server = s ∧
        (dbus.Server.ListDisplays s).2.err = none ∧
        (dbus.Server.ListDisplays s).2.server = s) ∧
    (∀ (s : dbus.Server) (now : ℚ) (ms : List dbus.MutCall),
        s.limiter = ⟨20, 5, 5, now⟩ → ms.length = 6 →
        (∀ i, i < 5 →
          (dbus.runMutCalls s now ms).1[i]? ≠ some (some dbus.ErrRateLimitExceeded)) ∧
        (dbus.runMutCalls s now ms).1[5]? = some (some dbus.ErrRateLimitExceeded)) := by
  refine ⟨?_, ?_, ?_⟩
  · intro s now serial b n bAll h
    exact ⟨setB_rate_limited s now serial b h, incB_rate_limited s now serial n h,
      decB_rate_limited s now serial n h, setAllB_rate_limited s now bAll h⟩
  · intro s serial
    exact ⟨getB_no_rate s serial, getB_server s serial, rfl, rfl⟩
  · intro s now ms hlim hlen
    have hlim' : s.limiter = ⟨20, 5, ((5 : ℕ) : ℚ), now⟩ := by
      rw [hlim]
      norm_num
    constructor
    · intro i hi hc
      have hchar := runMutCalls_errs ms s now 5 (le_refl 5) hlim' i (by omega)
      have := hchar.mp hc
      omega
    · exact (runMutCalls_errs ms s now 5 (le_refl 5) hlim' 5 (by omega)).mpr (le_refl 5)

/-- C6 witness: from the fixture server with a full bucket at time zero,
six identical SetBrightness calls see the sixth fail the rate check. -/
theorem claim_c6_rate_limiter_witness :
    (dbus.runMutCalls fxServer 0
        [.set "A" 50, .set "A" 50, .set "A" 50, .set "A" 50, .set "A" 50,
         .set "A" 50]).1[5]? = some (some dbus.ErrRateLimitExceeded) :=
  (claim_c6_rate_limiter.2.2 fxServer 0
      [.set "A" 50, .set "A" 50, .set "A" 50, .set "A" 50, .set "A" 50, .set "A" 50]
      rfl rfl).2

/-- C10: in the three per-display mutating methods the rate check precedes
input validation: with the bucket empty the call returns the
rate-limit-exceeded error for every serial and step, even empty or invalid
ones; and whenever the rate check passes, a token is consumed — the
resulting limiter holds the advanced token count minus one — again for
every serial and step, so calls that later fail validation still reduce
the budget. -/
theorem claim_c10_rate_before_validation :
    (∀ (s : dbus.Server) (now : ℚ) (serial : String) (b n : ℕ),
        s.limiter.advance now < 1 →
        (dbus.Server.SetBrightness s now serial b).err = some dbus.ErrRateLimitExceeded ∧
        (dbus.Server.IncreaseBrightness s now serial n).err =
          some dbus.ErrRateLimitExceeded ∧
        (dbus.Server.DecreaseBrightness s now serial n).err =
          some dbus.ErrRateLimitExceeded) ∧
    (∀ (s : dbus.Server) (now : ℚ) (serial : String) (b n : ℕ),
        (s.limiter.allow now).1 = true →
        (dbus.Server.SetBrightness s now serial b).server.limiter.tokens =
          s.limiter.advance now - 1 ∧
        (dbus.Server.IncreaseBrightness s now serial n).server.limiter.tokens =
          s.limiter.advance now - 1 ∧
        (dbus.Server.DecreaseBrightness s now serial n).server.limiter.tokens =
          s.limiter.advance now - 1) := by
  constructor
  · intro s now serial b n h
    refine ⟨?_, ?_, ?_⟩
    · rw [setB_rate_limited s now serial b h]
    · rw [incB_rate_limited s now serial n h]
    · rw [decB_rate_limited s now serial n h]
  · intro s now serial b n h
    refine ⟨?_, ?_, ?_⟩
    · rw [setB_server]
      exact allow_tokens_of_true s.limiter now h
    · rw [incB_server]
      exact allow_tokens_of_true s.limiter now h
    · rw [decB_server]
      exact allow_tokens_of_true s.limiter now h

theorem fxServerEmpty_advance : fxServerEmpty.limiter.advance 0 < 1 := by
  have h : fxServerEmpty.limiter = ⟨20, 5, 0, 0⟩ := rfl
  rw [h, advance_same_zero]
  norm_num

theorem fxServer_allow : (fxServer.limiter.allow 0).1 = true := by
  have h : fxServer.limiter = ⟨20, 5, 5, 0⟩ := rfl
  rw [h, allow_at_same 5 0 (by norm_num) (le_refl 5)]

/-- C10 witness: on the empty-bucket fixture server an invalid call (empty
serial, step 0) still gets the rate-limit error, and on the full-bucket
fixture server an equally invalid call still consumes a token. -/
theorem claim_c10_rate_before_validation_witness :
    (dbus.Server.IncreaseBrightness fxServerEmpty 0 "" 0).err =
        some dbus.ErrRateLimitExceeded ∧
      (dbus.Server.IncreaseBrightness fxServer 0 "" 0).server.limiter.tokens =
        fxServer.limiter.advance 0 - 1 :=
  ⟨(claim_c10_rate_before_validation.1 fxServerEmpty 0 "" 0 0 fxServerEmpty_advance).2.1,
   (claim_c10_rate_before_validation.2 fxServer 0 "" 0 0 fxServer_allow).2.1⟩

/-! Increase and decrease brightness: claim C5. -/

theorem display_get_ok_closed (d : hid.Display) (c : ℕ)
    (h : (hid.Display.GetBrightness d).1 = .ok c) : d.closed = false := by
  by_cases hc : d.closed
  · simp [hid.Display.GetBrightness, hc] at h
  · simpa using hc

theorem display_set_of_send_ok (d : hid.Display) (p : ℕ) (hclosed : d.closed = false)
    (hsend : ∀ data, ∃ n, d.device.SendFeatureReport data = .ok n) :
    hid.Display.SetBrightness d p =
      (.ok (), d,
        [.sendFeatureReport (hid.brightnessReport (brightness.PercentToNits p))]) := by
  obtain ⟨n, hn⟩ := hsend (hid.brightnessReport (brightness.PercentToNits p))
  unfold hid.Display.SetBrightness
  rw [if_neg (by simp [hclosed]), hn]

/-- C5: under an available token, a nonempty serial that resolves to an
open display whose current brightness reads as c and whose transport
accepts writes: IncreaseBrightness and DecreaseBrightness reject step 0
and steps above 100 with the invalid-step error; an accepted step makes
IncreaseBrightness write min(c+step, 100) to the display (as the encoded
feature report) and emit BrightnessChanged for it, and DecreaseBrightness
likewise for the saturating difference c - step. -/
theorem claim_c5_step_semantics (s : dbus.Server) (now : ℚ) (serial : String)
    (d : hid.Display) (c : ℕ)
    (hallow : (s.limiter.allow now).1 = true)
    (hser : serial ≠ "")
    (hfind : mapLookup s.manager.displays serial = some d)
    (hget : (hid.Display.GetBrightness d).1 = .ok c)
    (hc100 : c ≤ 100)
    (hsend : ∀ data, ∃ n, d.device.SendFeatureReport data = .ok n) :
    (∀ step, step = 0 ∨ step > 100 →
        (dbus.Server.IncreaseBrightness s now serial step).err =
            some dbus.ErrInvalidStep ∧
          (dbus.Server.DecreaseBrightness s now serial step).err =
            some dbus.ErrInvalidStep) ∧
    (∀ step, 1 ≤ step → step ≤ 100 →
        ((dbus.Server.IncreaseBrightness s now serial step).err = none ∧
          (dbus.Server.IncreaseBrightness s now serial step).signals =
            [.brightnessChanged serial (min (c + step) 100)] ∧
          hid.TransportCall.sendFeatureReport
              (hid.brightnessReport (brightness.PercentToNits (min (c + step) 100))) ∈
            (dbus.Server.IncreaseBrightness s now serial step).trace) ∧
        ((dbus.Server.DecreaseBrightness s now serial step).err = none ∧
          (dbus.Server.DecreaseBrightness s now serial step).signals =
            [.brightnessChanged serial (c - step)] ∧
          hid.TransportCall.sendFeatureReport
              (hid.brightnessReport (brightness.PercentToNits (c - step))) ∈
            (dbus.Server.DecreaseBrightness s now serial step).trace)) := by
  have hclosed : d.closed = false := display_get_ok_closed d c hget
  constructor
  · intro step hstep
    constructor
    · unfold dbus.Server.IncreaseBrightness
      dsimp only
      simp only [hallow, Bool.not_true, Bool.false_eq_true, if_false, if_neg hser,
        if_pos hstep]
    · unfold dbus.Server.DecreaseBrightness
      dsimp only
      simp only [hallow, Bool.not_true, Bool.false_eq_true, if_false, if_neg hser,
        if_pos hstep]
  · intro step h1 h100
    have hvalid : ¬ (step = 0 ∨ step > 100) := by omega
    constructor
    · -- IncreaseBrightness
      have hmodInc : (if c + step > 100 then 100 else c + step) % 256 =
          (if c + step > 100 then 100 else c + step) := by
        apply Nat.mod_eq_of_lt
        split <;> omega
      have hminInc : (if c + step > 100 then 100 else c + step) = min (c + step) 100 := by
        split <;> omega
      have heq : dbus.Server.IncreaseBrightness s now serial step =
          ⟨none, { s with limiter := (s.limiter.allow now).2 },
            [.brightnessChanged serial (if c + step > 100 then 100 else c + step)],
            (hid.Display.GetBrightness d).2.2 ++
              [.sendFeatureReport
                (hid.brightnessReport
                  (brightness.PercentToNits (if c + step > 100 then 100 else c + step)))],
            [.getDisplay serial]⟩ := by
        unfold dbus.Server.IncreaseBrightness
        dsimp only
        simp only [hallow, Bool.not_true, Bool.false_eq_true, if_false, if_neg hser,
          if_neg hvalid, hfind, hget, hmodInc,
          display_set_of_send_ok d _ hclosed hsend]
      rw [hminInc] at heq
      rw [heq]
      exact ⟨rfl, rfl, List.mem_append_right _ (List.mem_singleton.mpr rfl)⟩
    · -- DecreaseBrightness
      have hmodDec : (if c > step then c - step else 0) % 256 =
          (if c > step then c - step else 0) := by
        apply Nat.mod_eq_of_lt
        split <;> omega
      have hsatDec : (if c > step then c - step else 0) = c - step := by
        split <;> omega
      have heq : dbus.Server.DecreaseBrightness s now serial step =
          ⟨none, { s with limiter := (s.limiter.allow now).2 },
            [.brightnessChanged serial (if c > step then c - step else 0)],
            (hid.Display.GetBrightness d).2.2 ++
              [.sendFeatureReport
                (hid.brightnessReport
                  (brightness.PercentToNits (if c > step then c - step else 0)))],
            [.getDisplay serial]⟩ := by
        unfold dbus.Server.DecreaseBrightness
        dsimp only
        simp only [hallow, Bool.not_true, Bool.false_eq_true, if_false, if_neg hser,
          if_neg hvalid, hfind, hget, hmodDec,
          display_set_of_send_ok d _ hclosed hsend]
      rw [hsatDec] at heq
      rw [heq]
      exact ⟨rfl, rfl, List.mem_append_right _ (List.mem_singleton.mpr rfl)⟩

theorem fxDisplay_get : (hid.Display.GetBrightness fxDisplay).1 = .ok 50 := by
  have h0 : (hid.Display.GetBrightness fxDisplay).1 =
      .ok (brightness.NitsToPercent (hid.leUint32At1 fxBuf50)) := rfl
  rw [h0, show hid.leUint32At1 fxBuf50 = 596 * 50 + 400 by decide,
    NitsToPercent_of_exact 50 (by norm_num)]

/-- C5 witness: on the fixture server at serial A reading 50 percent, step
0 is rejected as invalid for both methods, and step 30 succeeds with the
expected write and signal for IncreaseBrightness. -/
theorem claim_c5_step_semantics_witness :
    ((dbus.Server.IncreaseBrightness fxServer 0 "A" 0).err = some dbus.ErrInvalidStep ∧
      (dbus.Server.DecreaseBrightness fxServer 0 "A" 0).err = some dbus.ErrInvalidStep) ∧
    ((dbus.Server.IncreaseBrightness fxServer 0 "A" 30).err = none ∧
      (dbus.Server.IncreaseBrightness fxServer 0 "A" 30).signals =
        [.brightnessChanged "A" (min (50 + 30) 100)] ∧
      hid.TransportCall.sendFeatureReport
          (hid.brightnessReport (brightness.PercentToNits (min (50 + 30) 100))) ∈
        (dbus.Server.IncreaseBrightness fxServer 0 "A" 30).trace) :=
  ⟨(claim_c5_step_semantics fxServer 0 "A" fxDisplay 50 fxServer_allow (by decide) rfl
      fxDisplay_get (by norm_num) (fun data => ⟨data.length, rfl⟩)).1 0 (Or.inl rfl),
   ((claim_c5_step_semantics fxServer 0 "A" fxDisplay 50 fxServer_allow (by decide) rfl
      fxDisplay_get (by norm_num) (fun data => ⟨data.length, rfl⟩)).2 30 (by norm_num)
      (by norm_num)).1⟩

/-! Snapshot diff: claim C9. -/

theorem diff_added_iff (oldD newD : List (String × hid.DeviceInfo)) (i : hid.DeviceInfo) :
    i ∈ (daemon.diffDisplays oldD newD).added ↔
      ∃ s, (s, i) ∈ newD ∧ mapLookup oldD s = none := by
  simp only [daemon.diffDisplays, List.mem_map, List.mem_filter,
    Option.isNone_iff_eq_none]
  constructor
  · rintro ⟨p, ⟨hmem, hnone⟩, rfl⟩
    exact ⟨p.1, by simpa using hmem, hnone⟩
  · rintro ⟨s, hmem, hnone⟩
    exact ⟨(s, i), ⟨hmem, hnone⟩, rfl⟩

theorem diff_removed_iff (oldD newD : List (String × hid.DeviceInfo)) (s : String) :
    s ∈ (daemon.diffDisplays oldD newD).removed ↔
      (∃ i, (s, i) ∈ oldD) ∧ mapLookup newD s = none := by
  simp only [daemon.diffDisplays, List.mem_map, List.mem_filter,
    Option.isNone_iff_eq_none]
  constructor
  · rintro ⟨p, ⟨hmem, hnone⟩, rfl⟩
    exact ⟨⟨p.2, by simpa using hmem⟩, hnone⟩
  · rintro ⟨⟨i, hmem⟩, hnone⟩
    exact ⟨(s, i), ⟨hmem, hnone⟩, rfl⟩

theorem diff_added_serials_nodup (oldD newD : List (String × hid.DeviceInfo))
    (hnodupNew : (newD.map Prod.fst).Nodup)
    (hwfNew : ∀ p ∈ newD, p.2.Serial = p.1) :
    (((daemon.diffDisplays oldD newD).added).map (fun i => i.Serial)).Nodup := by
  unfold daemon.diffDisplays
  dsimp only
  rw [List.map_map]
  have h1 : (newD.filter (fun p => (mapLookup oldD p.1).isNone)).map
        ((fun i => i.Serial) ∘ Prod.snd)
      = (newD.filter (fun p => (mapLookup oldD p.1).isNone)).map Prod.fst := by
    apply List.map_congr_left
    intro p hp
    exact hwfNew p (List.mem_of_mem_filter hp)
  rw [h1]
  exact hnodupNew.sublist ((List.filter_sublist _).map _)

theorem added_map_lookup_some (oldD newD : List (String × hid.DeviceInfo))
    (hnodupNew : (newD.map Prod.fst).Nodup)
    (hwfNew : ∀ p ∈ newD, p.2.Serial = p.1)
    (s : String) (j : hid.DeviceInfo)
    (hj : j ∈ (daemon.diffDisplays oldD newD).added) (hs : j.Serial = s) :
    mapLookup (((daemon.diffDisplays oldD newD).added).map (fun i => (i.Serial, i))) s =
      some j := by
  apply mapLookup_eq_some_of_nodup_mem
  · rw [List.map_map]
    have h2 : ((daemon.diffDisplays oldD newD).added).map (Prod.fst ∘ fun i => (i.Serial, i))
        = ((daemon.diffDisplays oldD newD).added).map (fun i => i.Serial) := rfl
    rw [h2]
    exact diff_added_serials_nodup oldD newD hnodupNew hwfNew
  · rw [← hs]
    exact List.mem_map.mpr ⟨j, hj, rfl⟩

theorem added_map_lookup_none (oldD newD : List (String × hid.DeviceInfo)) (s : String)
    (hno : ∀ j ∈ (daemon.diffDisplays oldD newD).added, j.Serial ≠ s) :
    mapLookup (((daemon.diffDisplays oldD newD).added).map (fun i => (i.Serial, i))) s =
      none := by
  rw [mapLookup_eq_none_iff]
  intro v hv
  obtain ⟨i, hi, heq⟩ := List.mem_map.mp hv
  exact hno i hi (congrArg Prod.fst heq)

theorem apply_no_added_serial (oldD newD : List (String × hid.DeviceInfo))
    (hwfNew : ∀ p ∈ newD, p.2.Serial = p.1) (s : String)
    (hn : mapLookup newD s = none) :
    ∀ j ∈ (daemon.diffDisplays oldD newD).added, j.Serial ≠ s := by
  intro j hj hjs
  obtain ⟨s', hmem', _⟩ := (diff_added_iff oldD newD j).mp hj
  have hss : s' = s := by
    rw [← hjs, hwfNew (s', j) hmem']
  subst hss
  have hsome := mem_mapLookup_isSome hmem'
  rw [hn] at hsome
  simp at hsome

theorem apply_lookup_new_none (oldD newD : List (String × hid.DeviceInfo))
    (hwfNew : ∀ p ∈ newD, p.2.Serial = p.1) (s : String)
    (hn : mapLookup newD s = none) :
    mapLookup (daemon.applyChanges oldD (daemon.diffDisplays oldD newD)) s = none := by
  have hfilter := mapLookup_filter_key oldD
    (fun k => !((daemon.diffDisplays oldD newD).removed.contains k)) s
  have hfil : mapLookup
      (oldD.filter (fun p => !((daemon.diffDisplays oldD newD).removed.contains p.1))) s =
      none := by
    cases ho : mapLookup oldD s with
    | some i =>
        have hrem : s ∈ (daemon.diffDisplays oldD newD).removed :=
          (diff_removed_iff oldD newD s).mpr ⟨⟨i, mapLookup_mem ho⟩, hn⟩
        rw [hfilter, if_neg]
        simp [hrem]
    | none =>
        rw [hfilter]
        split <;> simp [ho]
  unfold daemon.applyChanges
  rw [mapLookup_append_none _ hfil]
  exact added_map_lookup_none oldD newD s (apply_no_added_serial oldD newD hwfNew s hn)

theorem apply_lookup_old_kept (oldD newD : List (String × hid.DeviceInfo)) (s : String)
    (i : hid.DeviceInfo) (hnsome : (mapLookup newD s).isSome)
    (ho : mapLookup oldD s = some i) :
    mapLookup (daemon.applyChanges oldD (daemon.diffDisplays oldD newD)) s = some i := by
  have hnotrem : s ∉ (daemon.diffDisplays oldD newD).removed := by
    intro hrem
    obtain ⟨_, hnone⟩ := (diff_removed_iff oldD newD s).mp hrem
    rw [hnone] at hnsome
    simp at hnsome
  have hfil : mapLookup
      (oldD.filter (fun p => !((daemon.diffDisplays oldD newD).removed.contains p.1))) s =
      some i := by
    rw [mapLookup_filter_key oldD
      (fun k => !((daemon.diffDisplays oldD newD).removed.contains k)) s, if_pos]
    · exact ho
    · simp [hnotrem]
  unfold daemon.applyChanges
  exact mapLookup_append_some _ hfil

theorem apply_lookup_new_only (oldD newD : List (String × hid.DeviceInfo))
    (hnodupNew : (newD.map Prod.fst).Nodup)
    (hwfNew : ∀ p ∈ newD, p.2.Serial = p.1) (s : String) (j : hid.DeviceInfo)
    (hn : mapLookup newD s = some j) (ho : mapLookup oldD s = none) :
    mapLookup (daemon.applyChanges oldD (daemon.diffDisplays oldD newD)) s = some j := by
  have hmemj : (s, j) ∈ newD := mapLookup_mem hn
  have hjser : j.Serial = s := hwfNew (s, j) hmemj
  have hadd : j ∈ (daemon.diffDisplays oldD newD).added :=
    (diff_added_iff oldD newD j).mpr ⟨s, hmemj, ho⟩
  have hfil : mapLookup
      (oldD.filter (fun p => !((daemon.diffDisplays oldD newD).removed.contains p.1))) s =
      none := by
    rw [mapLookup_filter_key oldD
      (fun k => !((daemon.diffDisplays oldD newD).removed.contains k)) s]
    split <;> simp [ho]
  unfold daemon.applyChanges
  rw [mapLookup_append_none _ hfil]
  exact added_map_lookup_some oldD newD hnodupNew hwfNew s j hadd hjser

/-- C9 counterexample: on snapshots that keep serial A while its DeviceInfo
changes (a different device path), the diff is empty, so applying it to the
old snapshot keeps the old entry and does not yield the new mapping. -/
theorem claim_c9_diff_apply_counterexample :
    daemon.diffDisplays [("A", fxInfo)] [("A", fxInfoA2)] = ⟨[], []⟩ ∧
    mapLookup (daemon.applyChanges [("A", fxInfo)]
        (daemon.diffDisplays [("A", fxInfo)] [("A", fxInfoA2)])) "A" = some fxInfo ∧
    mapLookup [("A", fxInfoA2)] "A" = some fxInfoA2 ∧
    ¬ (mapLookup (daemon.applyChanges [("A", fxInfo)]
        (daemon.diffDisplays [("A", fxInfo)] [("A", fxInfoA2)])) "A" =
      mapLookup [("A", fxInfoA2)] "A") := by
  refine ⟨by decide, by decide, by decide, by decide⟩

/-- C9 (amended): for snapshot maps with distinct keys whose entries carry
their own serial as key, added is exactly the entries of new whose serial
is not a key of old, removed exactly the keys of old that are not keys of
new; applying the changes to old always yields a map with exactly the key
set of new, and yields exactly new as a key-to-entry mapping whenever old
and new agree on the DeviceInfo of every shared serial — the original
unconditional entry-level law fails when an entry changes in place, as the
counterexample shows. -/
theorem claim_c9_diff_apply_amended (oldD newD : List (String × hid.DeviceInfo))
    (_hnodupOld : (oldD.map Prod.fst).Nodup)
    (hnodupNew : (newD.map Prod.fst).Nodup)
    (hwfNew : ∀ p ∈ newD, p.2.Serial = p.1) :
    (∀ i, i ∈ (daemon.diffDisplays oldD newD).added ↔
      ∃ s, (s, i) ∈ newD ∧ mapLookup oldD s = none) ∧
    (∀ s, s ∈ (daemon.diffDisplays oldD newD).removed ↔
      (∃ i, (s, i) ∈ oldD) ∧ mapLookup newD s = none) ∧
    (∀ s, (mapLookup (daemon.applyChanges oldD (daemon.diffDisplays oldD newD)) s).isSome =
      (mapLookup newD s).isSome) ∧
    ((∀ p ∈ oldD, ∀ q ∈ newD, p.1 = q.1 → p.2 = q.2) →
      ∀ s, mapLookup (daemon.applyChanges oldD (daemon.diffDisplays oldD newD)) s =
        mapLookup newD s) := by
  refine ⟨diff_added_iff oldD newD, diff_removed_iff oldD newD, ?_, ?_⟩
  · intro s
    cases hn : mapLookup newD s with
    | none => rw [apply_lookup_new_none oldD newD hwfNew s hn]
    | some j =>
        cases ho : mapLookup oldD s with
        | some i =>
            rw [apply_lookup_old_kept oldD newD s i (by rw [hn]; rfl) ho]
            rfl
        | none => rw [apply_lookup_new_only oldD newD hnodupNew hwfNew s j hn ho]
  · intro hagree s
    cases hn : mapLookup newD s with
    | none => rw [apply_lookup_new_none oldD newD hwfNew s hn]
    | some j =>
        cases ho : mapLookup oldD s with
        | some i =>
            have hij : i = j :=
              hagree (s, i) (mapLookup_mem ho) (s, j) (mapLookup_mem hn) rfl
            rw [apply_lookup_old_kept oldD newD s i (by rw [hn]; rfl) ho, hij]
        | none => rw [apply_lookup_new_only oldD newD hnodupNew hwfNew s j hn ho]

/-- C9 witness: the amended law on concrete snapshots — old holds A and B,
new holds A (unchanged) and C; the applied diff looks up C exactly as new
does. -/
theorem claim_c9_diff_apply_amended_witness :
    mapLookup (daemon.applyChanges [("A", fxInfo), ("B", fxInfoB)]
        (daemon.diffDisplays [("A", fxInfo), ("B", fxInfoB)]
          [("A", fxInfo), ("C", fxInfoC)])) "C" =
      mapLookup [("A", fxInfo), ("C", fxInfoC)] "C" :=
  (claim_c9_diff_apply_amended [("A", fxInfo), ("B", fxInfoB)]
      [("A", fxInfo), ("C", fxInfoC)] (by decide) (by decide) (by decide)).2.2.2
    (by decide) "C"
